import Mathlib

/-!
# HX711 load-cell driver (kotelnikov/hx711): shallow embedding of `src/src/mgos_hx711.c`

The driver is a single C file on top of the Mongoose OS API.  The embedding keeps

* the device handle `struct mgos_hx711` and the sampling context
  `struct multi_sampling_ctx` as records, machine integers as `Int`/`Nat` with explicit
  wrap-around (`int8_of`, `int32_of`, `% 256`);
* the global pointer `hx711` as an `Option` (`none` is `NULL`) together with a flag that
  records whether the block it points to has been handed to `free`;
* every call into the platform (GPIO, timers, `mgos_usleep`, the critical section) as one
  `Event` appended to a chronological trace; the values the platform returns (data-line
  levels, `mgos_gpio_set_mode` results) come from an oracle `Env`;
* the private functions, which dereference `hx711` unconditionally, as functions of the
  pointee; a `NULL` sampling context or a zero divisor makes the dispatcher return `none`.

`LOG` output is not modelled.  A `float` is its 32-bit pattern; `mgos_hx711_get_units`
returns a symbolic `Units`, whose value `Units.result` is computed in IEEE-754 binary32
arithmetic (round to nearest, ties to even).
-/

namespace HX711

/-! ## Machine integers -/

/-- Conversion to `int8_t` (two's complement wrap-around). -/
def int8_of (x : Int) : Int := (x + 2 ^ 7) % 2 ^ 8 - 2 ^ 7

/-- Conversion to `int32_t` (two's complement wrap-around); on a `uint32_t` pattern this is
the reinterpretation `*((int32_t *)&raw_data)`. -/
def int32_of (x : Int) : Int := (x + 2 ^ 31) % 2 ^ 32 - 2 ^ 31

/-- Conversion to `uint8_t`. -/
def uint8_of (x : Int) : Nat := (x % 2 ^ 8).toNat

/-- A C `float`, kept as its IEEE-754 binary32 bit pattern. -/
structure F32 where
  bits : Nat
  deriving DecidableEq, Repr

/-- The `float` 1.0, the only pattern that compares equal to the constant `1`. -/
def F32.one : F32 := ⟨0x3F800000⟩

/-- The `float` +0.0, as left by `calloc`. -/
def F32.zero : F32 := ⟨0⟩

/-- Value returned by `mgos_hx711_get_units`: either the constant `0`, or the quotient
`value / scale` computed in floating point; `Units.result` below evaluates it. -/
inductive Units
  | zero
  | quot (value : Int) (scale : F32)
  deriving DecidableEq, Repr

/-! ## IEEE-754 binary32 arithmetic

The `float` operations `mgos_hx711_get_units` uses: conversion of an `int32_t` and
division, both rounded to nearest with ties to even, the default rounding of the C
implementations the driver is built with.  Widening the result to `double` is exact, so
the returned `double` has the value of the `float` computed here. -/

/-- The sign bit of a binary32 pattern. -/
def F32.sign (x : F32) : Bool := decide (x.bits / 2 ^ 31 % 2 = 1)

/-- The biased exponent field of a binary32 pattern. -/
def F32.expo (x : F32) : Nat := x.bits / 2 ^ 23 % 2 ^ 8

/-- The fraction field of a binary32 pattern. -/
def F32.frac (x : F32) : Nat := x.bits % 2 ^ 23

/-- The integer significand: the fraction for a zero or subnormal number, the fraction with
the hidden bit for a normal number. -/
def F32.signif (x : F32) : Nat := if x.expo = 0 then x.frac else 2 ^ 23 + x.frac

/-- The weight index `j` of the last significand bit, which weighs `2 ^ (j - 149)`. -/
def F32.index (x : F32) : Nat := if x.expo = 0 then 0 else x.expo - 1

/-- The magnitude of a finite binary32 number in units of `2 ^ (-149)`. -/
def F32.mag (x : F32) : Nat := x.signif * 2 ^ x.index

/-- The rational value of a finite binary32 number; `none` for infinities and NaN. -/
def F32.toRat (x : F32) : Option ℚ :=
  if x.expo = 255 then none
  else some ((if x.sign then -1 else 1) * (x.mag : ℚ) / 2 ^ 149)

/-- The binary32 pattern with the given sign, exponent field and fraction field. -/
def F32.pack (neg : Bool) (expo frac : Nat) : F32 :=
  ⟨(if neg then 2 ^ 31 else 0) + expo * 2 ^ 23 + frac⟩

/-- The binary32 infinity of the given sign. -/
def F32.inf (neg : Bool) : F32 := F32.pack neg 255 0

/-- The binary32 quiet NaN produced by an invalid operation. -/
def F32.nan : F32 := F32.pack false 255 (2 ^ 22)

/-- The least index `j ≥ j0` (at most `fuel` steps further) with `a / b < 2 ^ (j + 24)`. -/
def F32.find_index (a b : Nat) : Nat → Nat → Nat
  | 0, j => j
  | fuel + 1, j => if a < b * 2 ^ (j + 24) then j else F32.find_index a b fuel (j + 1)

/-- The integer nearest to `N / D`, ties to the even one. -/
def round_nearest_even (N D : Nat) : Nat :=
  if 2 * (N % D) < D then N / D
  else if D < 2 * (N % D) then N / D + 1
  else if N / D % 2 = 0 then N / D
  else N / D + 1

/-- The binary32 number of the given sign nearest to `a / b` units of `2 ^ (-149)`
(round to nearest, ties to even; overflow gives an infinity), for `a, b > 0`. -/
def F32.round_ratio (neg : Bool) (a b : Nat) : F32 :=
  let j := F32.find_index a b 254 0
  let n := round_nearest_even a (b * 2 ^ j)
  if n < 2 ^ 23 then F32.pack neg 0 n
  else if 2 ^ 24 ≤ n then (if 255 ≤ j + 2 then F32.inf neg else F32.pack neg (j + 2) 0)
  else if 255 ≤ j + 1 then F32.inf neg
  else F32.pack neg (j + 1) (n - 2 ^ 23)

/-- The conversion of an `int32_t` to `float`. -/
def F32.ofInt (v : Int) : F32 :=
  if v = 0 then F32.zero else F32.round_ratio (decide (v < 0)) (v.natAbs * 2 ^ 149) 1

/-- The `float` division `x / y`. -/
def F32.div (x y : F32) : F32 :=
  let neg := xor x.sign y.sign
  if x.expo = 255 ∧ x.frac ≠ 0 ∨ y.expo = 255 ∧ y.frac ≠ 0 then F32.nan
  else if x.expo = 255 then (if y.expo = 255 then F32.nan else F32.inf neg)
  else if y.expo = 255 then F32.pack neg 0 0
  else if y.mag = 0 then (if x.mag = 0 then F32.nan else F32.inf neg)
  else if x.mag = 0 then F32.pack neg 0 0
  else F32.round_ratio neg (x.mag * 2 ^ 149) y.mag

/-- The `float` whose widening to `double` is the value `mgos_hx711_get_units` returns. -/
def Units.result : Units → F32
  | Units.zero => F32.zero
  | Units.quot value scale => F32.div (F32.ofInt value) scale

/-! ## Data model (lines 20-54) -/

/-- The state enum `mgos_hx711_state_t`. -/
inductive mgos_hx711_state_t
  | HX711_IDLE
  | HX711_BUSY
  | HX711_SET_GAIN
  | HX711_READ
  | HX711_READ_AVERAGE
  deriving DecidableEq, Repr

open mgos_hx711_state_t

/-- The record `struct multi_sampling_ctx`: `times` and `attempt` are `uint8_t`, `sum` is
`int32_t`. -/
structure multi_sampling_ctx where
  times : Nat
  attempt : Nat
  sum : Int
  deriving DecidableEq, Repr

/-- The record `struct mgos_hx711`.  `cfg` is a pointer the driver never assigns. -/
structure mgos_hx711 where
  cfg : Nat
  state : mgos_hx711_state_t
  timer : Nat
  data_gpio : Int
  clock_gpio : Int
  gain : Int
  poll_period : Int
  poll_rate : Int
  delay_us : Int
  raw_data : Int
  offset : Int
  scale : F32
  deriving DecidableEq, Repr

/-- The configuration values returned by the `mgos_sys_config_get_hx711_*` getters. -/
structure mgos_config_hx711 where
  enable : Bool
  data_gpio : Int
  clock_gpio : Int
  gain : Int
  poll_period : Int
  poll_rate : Int
  delay_us : Int
  deriving DecidableEq, Repr

/-! ## Platform interface -/

/-- The functions the driver registers as timer callbacks. -/
inductive Callback
  | dispatcher
  | single_reading_cb
  | average_reading_cb
  deriving DecidableEq, Repr

/-- The pin modes `MGOS_GPIO_MODE_INPUT` and `MGOS_GPIO_MODE_OUTPUT`. -/
inductive GpioMode
  | input
  | output
  deriving DecidableEq, Repr

/-- One call into the platform.  `set_timer` carries the id the platform returned, the
period, the repeat flag, the callback and the sampling context passed as `arg`. -/
inductive Event
  | gpio_set_mode (pin : Int) (mode : GpioMode) (ok : Bool)
  | gpio_write (pin : Int) (level : Bool)
  | gpio_read (pin : Int) (level : Bool)
  | usleep (usecs : Int)
  | enter_critical
  | exit_critical
  | set_timer (id : Nat) (msecs : Int) (repeating : Bool) (cb : Callback)
      (arg : Option multi_sampling_ctx)
  | clear_timer (id : Nat)
  deriving DecidableEq, Repr

/-- What the platform answers: `level pin k` is the level returned by the `k`-th
`mgos_gpio_read` (counted over all reads) when it reads `pin`; `set_mode_ok pin` is the
result of `mgos_gpio_set_mode` on `pin`. -/
structure Env where
  level : Int → Nat → Bool
  set_mode_ok : Int → Bool

/-- Platform-side state: the trace of calls so far (oldest first), the number of GPIO reads
so far and the number of timers created so far. -/
structure Sys where
  trace : List Event
  reads : Nat
  timers : Nat
  deriving DecidableEq, Repr

/-- Platform call `mgos_gpio_write(pin, level)`. -/
def mgos_gpio_write (pin : Int) (level : Bool) (s : Sys) : Sys :=
  { s with trace := s.trace ++ [Event.gpio_write pin level] }

/-- Platform call `mgos_gpio_read(pin)`, which returns a `bool`: the level comes from the
oracle. -/
def mgos_gpio_read (env : Env) (pin : Int) (s : Sys) : Bool × Sys :=
  (env.level pin s.reads,
    { s with trace := s.trace ++ [Event.gpio_read pin (env.level pin s.reads)],
             reads := s.reads + 1 })

/-- Platform call `mgos_gpio_set_mode(pin, mode)`. -/
def mgos_gpio_set_mode (env : Env) (pin : Int) (mode : GpioMode) (s : Sys) : Bool × Sys :=
  (env.set_mode_ok pin,
    { s with trace := s.trace ++ [Event.gpio_set_mode pin mode (env.set_mode_ok pin)] })

/-- Platform call `mgos_usleep(usecs)`. -/
def mgos_usleep (usecs : Int) (s : Sys) : Sys :=
  { s with trace := s.trace ++ [Event.usleep usecs] }

/-- Platform call `mgos_set_timer(msecs, flags, cb, arg)`: ids are handed out in sequence,
starting at 1, so that no valid id is 0. -/
def mgos_set_timer (msecs : Int) (repeating : Bool) (cb : Callback)
    (arg : Option multi_sampling_ctx) (s : Sys) : Nat × Sys :=
  (s.timers + 1,
    { s with trace := s.trace ++ [Event.set_timer (s.timers + 1) msecs repeating cb arg],
             timers := s.timers + 1 })

/-- Platform call `mgos_clear_timer(id)`. -/
def mgos_clear_timer (id : Nat) (s : Sys) : Sys :=
  { s with trace := s.trace ++ [Event.clear_timer id] }

/-- Platform call `portENTER_CRITICAL(&mux)`. -/
def portENTER_CRITICAL (s : Sys) : Sys :=
  { s with trace := s.trace ++ [Event.enter_critical] }

/-- Platform call `portEXIT_CRITICAL(&mux)`. -/
def portEXIT_CRITICAL (s : Sys) : Sys :=
  { s with trace := s.trace ++ [Event.exit_critical] }

/-- The flag `MGOS_TIMER_REPEAT`. -/
def MGOS_TIMER_REPEAT : Bool := true

/-! ## Private functions (lines 172-279), on the block `hx711` points to -/

/-- The first loop of `mgos_hx711_read_raw` (lines 178-184), from index `i` with
accumulator `data`; `fuel` bounds the number of iterations. -/
def read_raw_data_loop (env : Env) (h : mgos_hx711) : Nat → Nat → Nat → Sys → Nat × Sys
  | 0, _, data, s => (data, s)
  | fuel + 1, i, data, s =>
    if i < 24 then
      let s := mgos_gpio_write h.clock_gpio true s
      let s := mgos_usleep h.delay_us s
      let r := mgos_gpio_read env h.data_gpio s
      let data := data ||| (r.1.toNat <<< (23 - i))
      let s := mgos_gpio_write h.clock_gpio false r.2
      let s := mgos_usleep h.delay_us s
      read_raw_data_loop env h fuel (i + 1) data s
    else (data, s)

/-- The second loop of `mgos_hx711_read_raw` (lines 186-191), from index `i`; `fuel`
bounds the number of iterations. -/
def read_raw_gain_loop (h : mgos_hx711) : Nat → Int → Sys → Sys
  | 0, _, s => s
  | fuel + 1, i, s =>
    if i ≤ h.gain then
      let s := mgos_gpio_write h.clock_gpio true s
      let s := mgos_usleep h.delay_us s
      let s := mgos_gpio_write h.clock_gpio false s
      let s := mgos_usleep h.delay_us s
      read_raw_gain_loop h fuel (i + 1) s
    else s

/-- The function `mgos_hx711_read_raw` (lines 172-195).  The data loop runs 24 times; the
gain loop runs at most 128 times because `gain` is an `int8_t`. -/
def mgos_hx711_read_raw (env : Env) (h : mgos_hx711) (s : Sys) : Nat × Sys :=
  let s := portENTER_CRITICAL s
  let r := read_raw_data_loop env h 24 0 0 s
  let s := read_raw_gain_loop h 128 0 r.2
  let s := portEXIT_CRITICAL s
  (r.1, s)

/-- The frame decoder inside `mgos_hx711_read_data` (lines 200-204): conditional sign
extension of the `uint32_t` followed by reinterpretation as `int32_t`. -/
def read_data_decode (raw_data : Nat) : Int :=
  let raw_data := if raw_data &&& 0x800000 ≠ 0 then raw_data ||| 0xff000000 else raw_data
  int32_of raw_data

/-- The function `mgos_hx711_read_data` (lines 197-205). -/
def mgos_hx711_read_data (env : Env) (h : mgos_hx711) (s : Sys) : Int × Sys :=
  let r := mgos_hx711_read_raw env h s
  (read_data_decode r.1, r.2)

/-- The function `mgos_hx711_is_ready` (lines 269-273). -/
def mgos_hx711_is_ready (env : Env) (h : mgos_hx711) (s : Sys) : Bool × Sys :=
  let r := mgos_gpio_read env h.data_gpio s
  (if r.1 = false then true else false, r.2)

/-- State after one callback: the handle, the sampling context behind `arg` and the
platform. -/
structure Tick where
  hx : mgos_hx711
  ctx : Option multi_sampling_ctx
  sys : Sys
  deriving DecidableEq, Repr

/-- The function `mgos_hx711_dispatcher` (lines 207-251).  `arg` is the sampling context the
timer was registered with (`none` for `NULL`).  The result is `none` where the C code
traps: dereferencing a `NULL` context, or dividing by `times = 0`. -/
def mgos_hx711_dispatcher (env : Env) (arg : Option multi_sampling_ctx) (h : mgos_hx711)
    (s : Sys) : Option Tick :=
  match h.state with
  | HX711_SET_GAIN =>
    let r := mgos_hx711_is_ready env h s
    if !r.1 then some ⟨h, arg, r.2⟩
    else
      let h := { h with state := HX711_BUSY }
      let s := mgos_clear_timer h.timer r.2
      let d := mgos_hx711_read_data env h s
      let h := { h with state := HX711_IDLE }
      some ⟨h, arg, d.2⟩
  | HX711_READ =>
    let r := mgos_hx711_is_ready env h s
    if !r.1 then some ⟨h, arg, r.2⟩
    else
      let h := { h with state := HX711_BUSY }
      let s := mgos_clear_timer h.timer r.2
      let d := mgos_hx711_read_data env h s
      let h := { h with raw_data := d.1, state := HX711_IDLE }
      some ⟨h, arg, d.2⟩
  | HX711_READ_AVERAGE =>
    let r := mgos_hx711_is_ready env h s
    if !r.1 then some ⟨h, arg, r.2⟩
    else
      let h := { h with state := HX711_BUSY }
      match arg with
      | none => none
      | some ctx =>
        if ctx.attempt ≤ ctx.times then
          let ctx := { ctx with attempt := (ctx.attempt + 1) % 2 ^ 8 }
          let d := mgos_hx711_read_data env h r.2
          let ctx := { ctx with sum := int32_of (ctx.sum + d.1) }
          let h := { h with state := HX711_READ_AVERAGE }
          some ⟨h, some ctx, d.2⟩
        else
          let s := mgos_clear_timer h.timer r.2
          if ctx.times = 0 then none
          else
            let h := { h with raw_data := int32_of (Int.tdiv ctx.sum ctx.times) }
            let ctx := { ctx with attempt := 0, sum := 0 }
            some ⟨{ h with state := HX711_IDLE }, some ctx, s⟩
  | HX711_IDLE => some ⟨h, arg, s⟩
  | HX711_BUSY => some ⟨h, arg, s⟩

/-- The function `mgos_hx711_single_reading_cb` (lines 253-259); `arg` is ignored. -/
def mgos_hx711_single_reading_cb (_arg : Option multi_sampling_ctx) (h : mgos_hx711)
    (s : Sys) : mgos_hx711 × Sys :=
  if h.state ≠ HX711_IDLE then (h, s)
  else
    let h := { h with state := HX711_READ }
    let t := mgos_set_timer 300 MGOS_TIMER_REPEAT Callback.dispatcher none s
    ({ h with timer := t.1 }, t.2)

/-- The function `mgos_hx711_average_reading_cb` (lines 261-267); the context is passed on
to the dispatcher timer and not touched. -/
def mgos_hx711_average_reading_cb (arg : Option multi_sampling_ctx) (h : mgos_hx711)
    (s : Sys) : mgos_hx711 × Sys :=
  if h.state ≠ HX711_IDLE then (h, s)
  else
    let h := { h with state := HX711_READ_AVERAGE }
    let t := mgos_set_timer 300 MGOS_TIMER_REPEAT Callback.dispatcher arg s
    ({ h with timer := t.1 }, t.2)

/-- The function `mgos_hx711_set_gain` (lines 275-279). -/
def mgos_hx711_set_gain (h : mgos_hx711) (s : Sys) : mgos_hx711 × Sys :=
  let h := { h with state := HX711_SET_GAIN }
  let t := mgos_set_timer 50 MGOS_TIMER_REPEAT Callback.dispatcher none s
  ({ h with timer := t.1 }, t.2)

/-! ## Public functions (lines 67-130, 133-170, 282-293), on the whole driver -/

/-- The driver as the public functions see it: the global pointer `hx711` (`none` is
`NULL`; `some h` points to a block with contents `h`), whether that block has been passed
to `free` (the pointer itself is not changed by `free`, and the embedding keeps the last
contents of the block), and the platform. -/
structure World where
  hx711 : Option mgos_hx711
  released : Bool
  sys : Sys
  deriving DecidableEq, Repr

/-- The driver before `mgos_hx711_init`: `hx711 = NULL`, nothing has happened. -/
def World.boot : World := ⟨none, false, ⟨[], 0, 0⟩⟩

/-- The function `mgos_hx711_power_up` (lines 67-72). -/
def mgos_hx711_power_up (w : World) : World :=
  match w.hx711 with
  | none => w
  | some h =>
    let s := mgos_gpio_write h.clock_gpio false w.sys
    let s := mgos_usleep 100 s
    { w with sys := s }

/-- The function `mgos_hx711_power_down` (lines 74-79). -/
def mgos_hx711_power_down (w : World) : World :=
  match w.hx711 with
  | none => w
  | some h =>
    let s := mgos_gpio_write h.clock_gpio true w.sys
    let s := mgos_usleep 100 s
    { w with sys := s }

/-- The function `mgos_hx711_start_polling` (lines 81-99).  The sampling context it
allocates is recorded as the `arg` of the timer it registers. -/
def mgos_hx711_start_polling (w : World) : World :=
  match w.hx711 with
  | none => w
  | some h =>
    if h.poll_period ≤ 0 then w
    else if h.poll_rate > 1 then
      let ctx : multi_sampling_ctx := { times := uint8_of h.poll_rate, attempt := 0, sum := 0 }
      let t := mgos_set_timer h.poll_period MGOS_TIMER_REPEAT Callback.average_reading_cb
        (some ctx) w.sys
      { w with sys := t.2 }
    else
      let t := mgos_set_timer h.poll_period MGOS_TIMER_REPEAT Callback.single_reading_cb
        none w.sys
      { w with sys := t.2 }

/-- The function `mgos_hx711_set_offset` (lines 101-105). -/
def mgos_hx711_set_offset (offset : Int) (w : World) : World :=
  match w.hx711 with
  | none => w
  | some h => { w with hx711 := some { h with offset := offset } }

/-- The function `mgos_hx711_set_scale` (lines 107-111). -/
def mgos_hx711_set_scale (scale : F32) (w : World) : World :=
  match w.hx711 with
  | none => w
  | some h => { w with hx711 := some { h with scale := scale } }

/-- The function `mgos_hx711_get_raw_data` (lines 113-117). -/
def mgos_hx711_get_raw_data (w : World) : Int :=
  match w.hx711 with
  | none => 0
  | some h => h.raw_data

/-- The function `mgos_hx711_get_value` (lines 119-123); the subtraction is `int32_t`. -/
def mgos_hx711_get_value (w : World) : Int :=
  match w.hx711 with
  | none => 0
  | some h => int32_of (h.raw_data - h.offset)

/-- The function `mgos_hx711_get_units` (lines 125-130). -/
def mgos_hx711_get_units (w : World) : Units :=
  match w.hx711 with
  | none => Units.zero
  | some h =>
    if h.scale = F32.one then Units.zero
    else Units.quot (mgos_hx711_get_value w) h.scale

/-- The block returned by `calloc(1, sizeof(*hx711))`: all bytes zero. -/
def calloc_mgos_hx711 : mgos_hx711 :=
  { cfg := 0, state := HX711_IDLE, timer := 0, data_gpio := 0, clock_gpio := 0, gain := 0,
    poll_period := 0, poll_rate := 0, delay_us := 0, raw_data := 0, offset := 0,
    scale := F32.zero }

/-- The function `mgos_hx711_configure_driver` (lines 133-170).  `free(hx711)` marks the
block as released and leaves the pointer as it is. -/
def mgos_hx711_configure_driver (cfg : mgos_config_hx711) (env : Env) (w : World) :
    Bool × World :=
  let h : mgos_hx711 :=
    { calloc_mgos_hx711 with
      data_gpio := int8_of cfg.data_gpio
      clock_gpio := int8_of cfg.clock_gpio
      gain := int8_of cfg.gain
      poll_period := int32_of cfg.poll_period
      poll_rate := int8_of cfg.poll_rate
      delay_us := int8_of cfg.delay_us
      raw_data := 0
      offset := 0
      scale := F32.one }
  let w := { w with hx711 := some h, released := false }
  let config_err := false
  let config_err := if h.data_gpio < 0 then true else config_err
  let config_err := if h.clock_gpio < 0 then true else config_err
  let config_err := if h.data_gpio = h.clock_gpio then true else config_err
  let config_err := if h.gain < 0 ∨ h.gain > 2 then true else config_err
  let config_err := if h.poll_period < 0 then true else config_err
  let config_err := if h.poll_rate < 1 then true else config_err
  if config_err then (false, { w with released := true })
  else
    let m := mgos_gpio_set_mode env h.data_gpio GpioMode.input w.sys
    if !m.1 then (false, { w with released := true, sys := m.2 })
    else
      let m := mgos_gpio_set_mode env h.clock_gpio GpioMode.output m.2
      if !m.1 then (false, { w with released := true, sys := m.2 })
      else
        let w := { w with sys := m.2 }
        let w := mgos_hx711_power_down w
        let w := mgos_hx711_power_up w
        let g := mgos_hx711_set_gain h w.sys
        (true, { w with hx711 := some g.1, sys := g.2 })

/-- The function `mgos_hx711_init` (lines 282-293). -/
def mgos_hx711_init (cfg : mgos_config_hx711) (env : Env) (w : World) : Bool × World :=
  if !cfg.enable then (true, w)
  else
    let r := mgos_hx711_configure_driver cfg env w
    if !r.1 then (true, r.2)
    else (true, r.2)

/-! ## Specification-side definitions and concrete inputs -/

/-- The platform calls of one data-bit clock pulse on which the data line reads `b`: clock
high, delay, sample, clock low, delay. -/
def data_pulse (h : mgos_hx711) (b : Bool) : List Event :=
  [Event.gpio_write h.clock_gpio true, Event.usleep h.delay_us,
   Event.gpio_read h.data_gpio b,
   Event.gpio_write h.clock_gpio false, Event.usleep h.delay_us]

/-- The platform calls of one trailing gain-select clock pulse: clock high, delay, clock
low, delay. -/
def gain_pulse (h : mgos_hx711) : List Event :=
  [Event.gpio_write h.clock_gpio true, Event.usleep h.delay_us,
   Event.gpio_write h.clock_gpio false, Event.usleep h.delay_us]

/-- The platform calls the specification prescribes for one frame read with `pulses`
trailing pulses, when the `i`-th sample of the data line is `b i`. -/
def frame_read_events (h : mgos_hx711) (b : Nat → Bool) (pulses : Nat) : List Event :=
  [Event.enter_critical] ++ (List.range 24).flatMap (fun i => data_pulse h (b i)) ++
    (List.replicate pulses (gain_pulse h)).flatten ++ [Event.exit_critical]

/-- Whether an event is a write of `level` to `pin`. -/
def Event.is_write (pin : Int) (level : Bool) : Event → Bool
  | Event.gpio_write p l => decide (p = pin) && (l == level)
  | _ => false

/-- Whether an event samples a GPIO line. -/
def Event.is_read : Event → Bool
  | Event.gpio_read _ _ => true
  | _ => false

/-- Whether an event drives or samples a GPIO line. -/
def Event.is_gpio : Event → Bool
  | Event.gpio_write _ _ => true
  | Event.gpio_read _ _ => true
  | _ => false

/-- An oracle that answers the successive GPIO reads with the given levels (and with high,
the not-ready level, once they are used up); every `mgos_gpio_set_mode` succeeds. -/
def Env.of_levels (l : List Bool) : Env :=
  { level := fun _ k => l.getD k true, set_mode_ok := fun _ => true }

/-- The 24 data-line levels that shift in the frame `raw`, most significant bit first. -/
def frame_levels (raw : Nat) : List Bool :=
  (List.range 24).map fun i => raw.testBit (23 - i)

/-- The levels seen by one tick on which the device is ready (data line low) and then shifts
out the frame `raw`. -/
def ready_tick_levels (raw : Nat) : List Bool := false :: frame_levels raw

/-- The result of `n` successive firings of the dispatcher timer: each firing calls
`mgos_hx711_dispatcher` with the same `arg`, whose pointee may have been updated. -/
def run_ticks (env : Env) : Nat → Tick → Option Tick
  | 0, t => some t
  | n + 1, t => (mgos_hx711_dispatcher env t.ctx t.hx t.sys).bind (run_ticks env n)

/-- A handle as it is after a successful set-up with data pin 4, clock pin 5, gain code 0,
poll period 1000, poll rate 2 and delay 1, idle. -/
def sample_handle : mgos_hx711 :=
  { calloc_mgos_hx711 with
    data_gpio := 4, clock_gpio := 5, poll_period := 1000, poll_rate := 2, delay_us := 1,
    scale := F32.one }

/-- An enabled configuration whose data pin is negative. -/
def negative_pin_config : mgos_config_hx711 :=
  { enable := true, data_gpio := -1, clock_gpio := 5, gain := 0, poll_period := 1000,
    poll_rate := 1, delay_us := 1 }

/-- A device that is ready on every tick and delivers the frame 10 each time it is read. -/
def constant_ten_env : Env :=
  Env.of_levels (ready_tick_levels 10 ++ ready_tick_levels 10 ++ ready_tick_levels 10 ++
    ready_tick_levels 10)

/-- An averaged-read cycle just armed from `HX711_IDLE` by `mgos_hx711_average_reading_cb`
with a fresh sampling context of target count 2. -/
def armed_average_two : Tick :=
  let r := mgos_hx711_average_reading_cb (some ⟨2, 0, 0⟩) sample_handle ⟨[], 0, 0⟩
  ⟨r.1, some ⟨2, 0, 0⟩, r.2⟩

/-! ## Definitions for runs of callbacks -/

/-- The frame shifted in by 24 successive samples of `pin` that start with the `k`-th GPIO
read, first sample most significant. -/
def frame_at (env : Env) (pin : Int) (k : Nat) : Nat :=
  ∑ i in Finset.range 24, (env.level pin (k + i)).toNat * 2 ^ (23 - i)

/-- The number of trailing pulses `mgos_hx711_read_raw` emits: `gain + 1`, none for a
negative sum, and never more than the 128 an `int8_t` gain allows. -/
def gain_pulses (h : mgos_hx711) : Nat := min 128 (h.gain + 1).toNat

/-- The trace left by one `mgos_hx711_read_raw` that starts at GPIO read number `k`. -/
def frame_events_at (env : Env) (h : mgos_hx711) (k : Nat) : List Event :=
  frame_read_events h (fun i => env.level h.data_gpio (k + i)) (gain_pulses h)

/-- Whether an event enters the critical section. -/
def Event.is_enter : Event → Bool
  | Event.enter_critical => true
  | _ => false

/-- Whether an event leaves the critical section. -/
def Event.is_exit : Event → Bool
  | Event.exit_critical => true
  | _ => false

/-- Whether an event cancels a timer. -/
def Event.is_clear : Event → Bool
  | Event.clear_timer _ => true
  | _ => false

/-- One firing of a timer callback on the driver: the dispatcher and the averaged-read
request receive the sampling context as `arg`, the single-read request receives `NULL`. -/
def fire (env : Env) (cb : Callback) (t : Tick) : Option Tick :=
  match cb with
  | Callback.dispatcher => mgos_hx711_dispatcher env t.ctx t.hx t.sys
  | Callback.single_reading_cb =>
    let r := mgos_hx711_single_reading_cb none t.hx t.sys
    some ⟨r.1, t.ctx, r.2⟩
  | Callback.average_reading_cb =>
    let r := mgos_hx711_average_reading_cb t.ctx t.hx t.sys
    some ⟨r.1, t.ctx, r.2⟩

/-- The result of firing the given callbacks one after the other. -/
def run_callbacks (env : Env) : List Callback → Tick → Option Tick
  | [], t => some t
  | cb :: cbs, t => (fire env cb t).bind (run_callbacks env cbs)

/-- Among the first `n` firings of the dispatcher timer from `t`, the number at which the
device is ready, that is, at which the data line is low when the firing begins. -/
def ready_ticks (env : Env) : Nat → Tick → Nat
  | 0, _ => 0
  | n + 1, t =>
    (if env.level t.hx.data_gpio t.sys.reads = false then 1 else 0) +
      match mgos_hx711_dispatcher env t.ctx t.hx t.sys with
      | none => 0
      | some t' => ready_ticks env n t'

/-- The configuration fields of a handle. -/
def config_fields (h : mgos_hx711) : Int × Int × Int × Int × Int × Int :=
  (h.data_gpio, h.clock_gpio, h.gain, h.poll_period, h.poll_rate, h.delay_us)

/-- The data-model invariant of the specification: pins non-negative and distinct, gain
code 0, 1 or 2, poll rate at least 1, poll period non-negative. -/
def valid_config (h : mgos_hx711) : Prop :=
  0 ≤ h.data_gpio ∧ 0 ≤ h.clock_gpio ∧ h.data_gpio ≠ h.clock_gpio ∧
    (h.gain = 0 ∨ h.gain = 1 ∨ h.gain = 2) ∧ 1 ≤ h.poll_rate ∧ 0 ≤ h.poll_period

/-- A configuration that passes validation: data pin 4, clock pin 5, gain code 1, poll
period 1000, poll rate 3, delay 1. -/
def accepted_config : mgos_config_hx711 :=
  { enable := true, data_gpio := 4, clock_gpio := 5, gain := 1, poll_period := 1000,
    poll_rate := 3, delay_us := 1 }

/-- An averaged-read cycle just armed: the state after `mgos_hx711_average_reading_cb` ran
on handle `h` with a fresh sampling context of target count `N`. -/
def arm_average (N : Nat) (h : mgos_hx711) (s : Sys) : Tick :=
  ⟨(mgos_hx711_average_reading_cb (some ⟨N, 0, 0⟩) h s).1, some ⟨N, 0, 0⟩,
    (mgos_hx711_average_reading_cb (some ⟨N, 0, 0⟩) h s).2⟩

/-- The number of frame reads recorded in a trace: each `mgos_hx711_read_raw` enters the
critical section once. -/
def frame_reads (s : Sys) : Nat := s.trace.countP Event.is_enter

/-- The number of `mgos_clear_timer` calls recorded in a trace. -/
def timer_cancels (s : Sys) : Nat := s.trace.countP Event.is_clear

/-- The bounds of the averaging arithmetic for target count `N`: the attempt counter is at
most `N + 1` and the running sum is at most `attempt * 2 ^ 23` in absolute value. -/
def average_bounds (N : Nat) (c : multi_sampling_ctx) : Prop :=
  c.times = N ∧ c.attempt ≤ N + 1 ∧ |c.sum| ≤ (c.attempt : Int) * 2 ^ 23

/-- Raw reading 100, offset 0 and scale 2.0 on an initialised driver. -/
def fifty_units_world : World :=
  ⟨some { sample_handle with raw_data := 100, offset := 0, scale := ⟨0x40000000⟩ }, false,
    ⟨[], 0, 0⟩⟩

/-- Raw reading 8388607 (the largest frame), offset -8388610 and scale 2.0 on an
initialised driver: the value is 16777217, which needs 25 bits. -/
def inexact_units_world : World :=
  ⟨some { sample_handle with raw_data := 8388607, offset := -8388610,
                             scale := ⟨0x40000000⟩ }, false, ⟨[], 0, 0⟩⟩

/-! ## Auxiliary lemmas -/

theorem and_bit23 (raw : Nat) :
    raw &&& 0x800000 = if raw.testBit 23 then 0x800000 else 0 := by
  apply Nat.eq_of_testBit_eq
  intro i
  have key : Nat.testBit 0x800000 i = decide (23 = i) := by
    have := @Nat.testBit_two_pow 23 i
    simpa using this
  rw [Nat.testBit_and, key]
  by_cases hi : 23 = i
  · subst hi
    cases hb : raw.testBit 23 <;> simp [key]
  · cases hb : raw.testBit 23 <;> simp [key, hi]

theorem or_high_byte (raw : Nat) (h : raw < 2 ^ 24) :
    raw ||| 0xff000000 = raw + 0xff000000 := by
  have := Nat.mul_add_lt_is_or h 255
  rw [Nat.or_comm]
  have e : (0xff000000 : Nat) = 2 ^ 24 * 255 := by norm_num
  rw [e, ← this]; omega

theorem testBit23_iff (raw : Nat) (h : raw < 2 ^ 24) :
    raw.testBit 23 = true ↔ 2 ^ 23 ≤ raw := by
  have ht := @Nat.testBit_to_div_mod 23 raw
  rw [ht]
  simp only [decide_eq_true_eq]
  omega

theorem read_data_decode_eq (raw : Nat) (h : raw < 2 ^ 24) :
    read_data_decode raw = if raw.testBit 23 then (raw : Int) - 2 ^ 24 else (raw : Int) := by
  have ht := testBit23_iff raw h
  unfold read_data_decode int32_of
  simp only [and_bit23]
  cases hb : raw.testBit 23
  · rw [hb] at ht
    have : ¬ 2 ^ 23 ≤ raw := by simpa using ht
    simp
    omega
  · rw [hb] at ht
    have : 2 ^ 23 ≤ raw := by simpa using ht
    simp only [or_high_byte raw h]
    simp
    omega

theorem or_bit_eq_add (k n : Nat) (b : Bool) :
    2 ^ (n + 1) * k ||| (b.toNat <<< n) = 2 ^ (n + 1) * k + b.toNat * 2 ^ n := by
  rw [Nat.shiftLeft_eq]
  have hb : b.toNat * 2 ^ n < 2 ^ (n + 1) := by
    have : 0 < 2 ^ n := Nat.two_pow_pos n
    cases b
    · simp
    · simp [pow_succ]
  exact (Nat.mul_add_lt_is_or hb k).symm

theorem read_raw_data_loop_fst (env : Env) (h : mgos_hx711) :
    ∀ (fuel i data : Nat) (s : Sys), i + fuel = 24 → 2 ^ fuel ∣ data →
      (read_raw_data_loop env h fuel i data s).1 =
        data + ∑ j in Finset.range fuel,
          (env.level h.data_gpio (s.reads + j)).toNat * 2 ^ (fuel - 1 - j) := by
  intro fuel
  induction fuel with
  | zero => intro i data s _ _; simp [read_raw_data_loop]
  | succ n ih =>
    intro i data s hi hd
    have hlt : i < 24 := by omega
    have h23 : 23 - i = n := by omega
    obtain ⟨k, rfl⟩ := hd
    rw [read_raw_data_loop, if_pos hlt]
    simp only [h23]
    rw [ih (i + 1) _ _ (by omega)]
    · rw [or_bit_eq_add, Finset.sum_range_succ']
      have e : ∀ x, n - 1 - x = n - (x + 1) := fun x => by omega
      simp [mgos_gpio_read, mgos_gpio_write, mgos_usleep, Nat.add_assoc, Nat.add_comm 1, e]
      ring
    · rw [or_bit_eq_add]
      exact ⟨2 * k + (mgos_gpio_read env h.data_gpio
        (mgos_usleep h.delay_us (mgos_gpio_write h.clock_gpio true s))).1.toNat,
        by rw [pow_succ]; ring⟩

theorem read_raw_data_loop_snd (env : Env) (h : mgos_hx711) :
    ∀ (fuel i data : Nat) (s : Sys), i + fuel = 24 →
      (read_raw_data_loop env h fuel i data s).2 =
        { trace := s.trace ++ (List.range fuel).flatMap fun j =>
            data_pulse h (env.level h.data_gpio (s.reads + j)),
          reads := s.reads + fuel, timers := s.timers } := by
  intro fuel
  induction fuel with
  | zero => intro i data s _; simp [read_raw_data_loop]
  | succ n ih =>
    intro i data s hi
    have hlt : i < 24 := by omega
    rw [read_raw_data_loop, if_pos hlt]
    simp only []
    rw [ih (i + 1) _ _ (by omega)]
    simp [List.range_succ_eq_map, List.flatMap_map, mgos_gpio_read, mgos_gpio_write,
      mgos_usleep, data_pulse, Nat.add_assoc, Nat.add_comm 1, Function.comp_def]

theorem read_raw_gain_loop_eq (h : mgos_hx711) :
    ∀ (fuel : Nat) (i : Int) (s : Sys), (h.gain + 1 - i).toNat ≤ fuel →
      read_raw_gain_loop h fuel i s =
        { s with trace := s.trace ++
            (List.replicate (h.gain + 1 - i).toNat (gain_pulse h)).flatten } := by
  intro fuel
  induction fuel with
  | zero =>
    intro i s h2
    have : (h.gain + 1 - i).toNat = 0 := by omega
    simp [read_raw_gain_loop, this]
  | succ n ih =>
    intro i s h2
    rw [read_raw_gain_loop]
    by_cases hle : i ≤ h.gain
    · rw [if_pos hle]
      simp only []
      rw [ih (i + 1) _ (by omega)]
      have e : (h.gain + 1 - i).toNat = (h.gain + 1 - (i + 1)).toNat + 1 := by omega
      rw [e, List.replicate_succ]
      simp [mgos_gpio_write, mgos_usleep, gain_pulse]
    · rw [if_neg hle]
      have : (h.gain + 1 - i).toNat = 0 := by omega
      simp [this]

theorem read_raw_gain_loop_reads (h : mgos_hx711) :
    ∀ (fuel : Nat) (i : Int) (s : Sys), (read_raw_gain_loop h fuel i s).reads = s.reads := by
  intro fuel
  induction fuel with
  | zero => intro i s; simp [read_raw_gain_loop]
  | succ n ih =>
    intro i s
    rw [read_raw_gain_loop]
    split
    · simp only []
      rw [ih]
      simp [mgos_gpio_write, mgos_usleep]
    · rfl

/-- The trace and counters after `mgos_hx711_read_raw`, for a gain field in `-1 .. 127`. -/
theorem mgos_hx711_read_raw_snd (env : Env) (h : mgos_hx711) (s : Sys)
    (hg : h.gain ≤ 127) :
    (mgos_hx711_read_raw env h s).2 =
      { trace := s.trace ++ frame_read_events h
          (fun i => env.level h.data_gpio (s.reads + i)) (h.gain + 1).toNat,
        reads := s.reads + 24, timers := s.timers } := by
  unfold mgos_hx711_read_raw
  simp only []
  rw [read_raw_data_loop_snd env h 24 0 0 _ (by norm_num),
    read_raw_gain_loop_eq h 128 0 _ (by omega)]
  simp [portENTER_CRITICAL, portEXIT_CRITICAL, frame_read_events]

/-- The frame returned by `mgos_hx711_read_raw`. -/
theorem mgos_hx711_read_raw_fst (env : Env) (h : mgos_hx711) (s : Sys) :
    (mgos_hx711_read_raw env h s).1 =
      ∑ i in Finset.range 24, (env.level h.data_gpio (s.reads + i)).toNat * 2 ^ (23 - i) := by
  unfold mgos_hx711_read_raw
  simp only []
  rw [read_raw_data_loop_fst env h 24 0 0 _ (by norm_num) (dvd_zero _)]
  simp [portENTER_CRITICAL]

/-- A sum of 24 weighted bits, most significant first, is below `2 ^ 24`. -/
theorem frame_sum_lt (b : Nat → Bool) :
    ∑ i in Finset.range 24, (b i).toNat * 2 ^ (23 - i) < 2 ^ 24 := by
  have hb : ∀ i, (b i).toNat ≤ 1 := fun i => by cases b i <;> simp
  have h1 : ∑ i in Finset.range 24, (b i).toNat * 2 ^ (23 - i) ≤
      ∑ i in Finset.range 24, 1 * 2 ^ (23 - i) :=
    Finset.sum_le_sum fun i _ => Nat.mul_le_mul_right _ (hb i)
  have h2 : ∑ i in Finset.range 24, 1 * 2 ^ (23 - i) = 2 ^ 24 - 1 := by decide
  omega

theorem int32_of_eq_self (x : Int) (h1 : -2 ^ 31 ≤ x) (h2 : x < 2 ^ 31) : int32_of x = x := by
  unfold int32_of
  omega

theorem range_24 :
    List.range 24 = [0, 1, 2, 3, 4, 5, 6, 7, 8, 9, 10, 11, 12, 13, 14, 15, 16, 17, 18, 19, 20,
      21, 22, 23] := by
  decide

/-- The GPIO operations among the platform calls of one frame read: 24 times clock high,
sample, clock low, then `pulses` times clock high, clock low. -/
theorem frame_read_events_gpio (h : mgos_hx711) (b : Nat → Bool) (pulses : Nat) :
    (frame_read_events h b pulses).filter Event.is_gpio =
      (List.range 24).flatMap (fun i =>
        [Event.gpio_write h.clock_gpio true, Event.gpio_read h.data_gpio (b i),
         Event.gpio_write h.clock_gpio false]) ++
      (List.replicate pulses
        [Event.gpio_write h.clock_gpio true, Event.gpio_write h.clock_gpio false]).flatten := by
  have hp : ∀ n : Nat, (List.replicate n (gain_pulse h)).flatten.filter Event.is_gpio =
      (List.replicate n
        [Event.gpio_write h.clock_gpio true, Event.gpio_write h.clock_gpio false]).flatten := by
    intro n
    induction n with
    | zero => simp
    | succ n ih => simp [List.replicate_succ, ih, gain_pulse, Event.is_gpio]
  unfold frame_read_events
  simp only [List.filter_append, hp, range_24]
  simp [List.flatMap, data_pulse, Event.is_gpio]

theorem frame_read_events_count_write (h : mgos_hx711) (b : Nat → Bool) (pulses : Nat)
    (level : Bool) :
    (frame_read_events h b pulses).countP (Event.is_write h.clock_gpio level) =
      24 + pulses := by
  have hp : ∀ n : Nat, (List.replicate n (gain_pulse h)).flatten.countP
      (Event.is_write h.clock_gpio level) = n := by
    intro n
    induction n with
    | zero => simp
    | succ n ih =>
      cases level <;>
        simp [List.replicate_succ, ih, gain_pulse, Event.is_write, List.countP_cons]
  unfold frame_read_events
  simp only [List.countP_append, hp, range_24]
  cases level <;> simp [List.flatMap, data_pulse, Event.is_write, List.countP_cons]

theorem frame_read_events_count_read (h : mgos_hx711) (b : Nat → Bool) (pulses : Nat) :
    (frame_read_events h b pulses).countP Event.is_read = 24 := by
  have hp : ∀ n : Nat, (List.replicate n (gain_pulse h)).flatten.countP Event.is_read = 0 := by
    intro n
    induction n with
    | zero => simp
    | succ n ih => simp [List.replicate_succ, ih, gain_pulse, Event.is_read, List.countP_cons]
  unfold frame_read_events
  simp only [List.countP_append, hp, range_24]
  simp [List.flatMap, data_pulse, Event.is_read, List.countP_cons]

/-! ## Frame decoder -/

/-- Claim C1: on every 24-bit frame the decoder of `mgos_hx711_read_data` returns the frame
itself when bit 23 is clear and the frame minus `2 ^ 24` when bit 23 is set, the result is
an `int32_t` value, and the four frames named by the specification decode to 1, -8388608,
8388607 and -1. -/
theorem read_data_decode_sign_extends (raw : Nat) (h : raw < 2 ^ 24) :
    read_data_decode raw = (if raw.testBit 23 then (raw : Int) - 2 ^ 24 else (raw : Int)) ∧
    -2 ^ 31 ≤ read_data_decode raw ∧ read_data_decode raw < 2 ^ 31 ∧
    read_data_decode 0x000001 = 1 ∧ read_data_decode 0x800000 = -8388608 ∧
    read_data_decode 0x7FFFFF = 8388607 ∧ read_data_decode 0xFFFFFF = -1 := by
  refine ⟨read_data_decode_eq raw h, ?_, ?_, by decide, by decide, by decide, by decide⟩
  · rw [read_data_decode_eq raw h]; split <;> omega
  · rw [read_data_decode_eq raw h]; split <;> omega

/-- Witness for C1 at the frame `0xABCDEF`, whose bit 23 is set. -/
theorem read_data_decode_sign_extends_witness :
    0xABCDEF < 2 ^ 24 ∧ read_data_decode 0xABCDEF = -5517841 :=
  ⟨by decide, by
    have h := (read_data_decode_sign_extends 0xABCDEF (by decide)).1
    simpa using h⟩

/-! ## Averaging -/

/-- Claim C2 (evaluation of the code): with target count 2 and a device that delivers the
frame 10 on every ready tick, the cycle armed from `HX711_IDLE` is still in
`HX711_READ_AVERAGE` after two ready ticks, accumulates a third frame on the third tick and
on the fourth tick stores 30 / 2 = 15, not the average 10; attempt counter and sum are then
back at zero. -/
theorem average_cycle_accumulates_extra_frame :
    (run_ticks constant_ten_env 2 armed_average_two).map
        (fun t => (t.hx.state, t.hx.raw_data, t.ctx)) =
      some (HX711_READ_AVERAGE, 0, some ⟨2, 2, 20⟩) ∧
    (run_ticks constant_ten_env 3 armed_average_two).map
        (fun t => (t.hx.state, t.hx.raw_data, t.ctx)) =
      some (HX711_READ_AVERAGE, 0, some ⟨2, 3, 30⟩) ∧
    (run_ticks constant_ten_env 4 armed_average_two).map
        (fun t => (t.hx.state, t.hx.raw_data, t.ctx)) =
      some (HX711_IDLE, 15, some ⟨2, 0, 0⟩) := by
  refine ⟨?_, ?_, ?_⟩ <;> decide

/-! ## Read requests and readiness gating -/

/-- Claim C3: when the state is not `HX711_IDLE`, `mgos_hx711_single_reading_cb` and
`mgos_hx711_average_reading_cb` return the handle and the platform state as they were: no
field changes and no timer is registered. -/
theorem reading_cb_noop_unless_idle (arg : Option multi_sampling_ctx) (h : mgos_hx711)
    (s : Sys) (hs : h.state ≠ HX711_IDLE) :
    mgos_hx711_single_reading_cb arg h s = (h, s) ∧
    mgos_hx711_average_reading_cb arg h s = (h, s) := by
  simp [mgos_hx711_single_reading_cb, mgos_hx711_average_reading_cb, hs]

/-- Witness for C3 on a handle in state `HX711_READ`. -/
theorem reading_cb_noop_unless_idle_witness :
    ({ sample_handle with state := HX711_READ } : mgos_hx711).state ≠ HX711_IDLE ∧
    mgos_hx711_single_reading_cb none { sample_handle with state := HX711_READ } ⟨[], 0, 0⟩ =
      ({ sample_handle with state := HX711_READ }, ⟨[], 0, 0⟩) :=
  ⟨by decide,
    (reading_cb_noop_unless_idle none { sample_handle with state := HX711_READ } ⟨[], 0, 0⟩
      (by decide)).1⟩

/-- Claim C4: a dispatcher tick on which the data line reads high returns the handle and the
sampling context unchanged, in every state; the only platform call it makes is the
readiness sample itself (none at all in `HX711_IDLE` and `HX711_BUSY`), so the clock line is
not written and no timer is cancelled or created. -/
theorem dispatcher_not_ready_noop (env : Env) (arg : Option multi_sampling_ctx)
    (h : mgos_hx711) (s : Sys) (hr : env.level h.data_gpio s.reads = true) :
    mgos_hx711_dispatcher env arg h s =
      some ⟨h, arg,
        if h.state = HX711_IDLE ∨ h.state = HX711_BUSY then s
        else { s with trace := s.trace ++ [Event.gpio_read h.data_gpio true],
                      reads := s.reads + 1 }⟩ := by
  unfold mgos_hx711_dispatcher
  cases hst : h.state <;> simp [mgos_hx711_is_ready, mgos_gpio_read, hr]

/-- Witness for C4 on a handle in state `HX711_READ_AVERAGE` with a half-filled context. -/
theorem dispatcher_not_ready_noop_witness :
    mgos_hx711_dispatcher (Env.of_levels [true]) (some ⟨2, 1, 10⟩)
        { sample_handle with state := HX711_READ_AVERAGE } ⟨[], 0, 0⟩ =
      some ⟨{ sample_handle with state := HX711_READ_AVERAGE }, some ⟨2, 1, 10⟩,
        ⟨[Event.gpio_read 4 true], 1, 0⟩⟩ := by
  have h := dispatcher_not_ready_noop (Env.of_levels [true]) (some ⟨2, 1, 10⟩)
    { sample_handle with state := HX711_READ_AVERAGE } ⟨[], 0, 0⟩ (by decide)
  simpa [sample_handle] using h

/-! ## Initialisation with a rejected configuration -/

/-- Claim C5 (evaluation of the code): for an enabled configuration with data pin -1,
`mgos_hx711_init` returns true, but `hx711` still points to the block that
`mgos_hx711_configure_driver` released, so the `hx711 == NULL` guards do not fire:
`mgos_hx711_power_down` writes the clock pin, `mgos_hx711_start_polling` registers a timer
and `mgos_hx711_set_offset` stores into the released block. -/
theorem init_rejected_config_keeps_pointer :
    (mgos_hx711_init negative_pin_config (Env.of_levels []) World.boot).1 = true ∧
    (mgos_hx711_init negative_pin_config (Env.of_levels []) World.boot).2.hx711 ≠ none ∧
    (mgos_hx711_init negative_pin_config (Env.of_levels []) World.boot).2.released = true ∧
    (mgos_hx711_power_down
        (mgos_hx711_init negative_pin_config (Env.of_levels []) World.boot).2).sys.trace =
      [Event.gpio_write 5 true, Event.usleep 100] ∧
    (mgos_hx711_start_polling
        (mgos_hx711_init negative_pin_config (Env.of_levels []) World.boot).2).sys.trace =
      [Event.set_timer 1 1000 true Callback.single_reading_cb none] ∧
    (mgos_hx711_set_offset 7
        (mgos_hx711_init negative_pin_config (Env.of_levels []) World.boot).2) ≠
      (mgos_hx711_init negative_pin_config (Env.of_levels []) World.boot).2 := by
  refine ⟨?_, ?_, ?_, ?_, ?_, ?_⟩ <;> decide

/-! ## Accessors -/

/-- Claim C6: on an initialised driver, after `mgos_hx711_set_offset offset` the value
returned by `mgos_hx711_get_value` is `mgos_hx711_get_raw_data` minus `offset` in `int32_t`
arithmetic (exactly the difference whenever that fits 32 bits), for every sign of the
offset; `mgos_hx711_set_offset` changes the offset field and nothing else, the raw reading
included. -/
theorem get_value_eq_raw_minus_offset (w : World) (h : mgos_hx711) (offset : Int)
    (hw : w.hx711 = some h) :
    mgos_hx711_get_value (mgos_hx711_set_offset offset w) =
      int32_of (mgos_hx711_get_raw_data (mgos_hx711_set_offset offset w) - offset) ∧
    (-2 ^ 31 ≤ h.raw_data - offset → h.raw_data - offset < 2 ^ 31 →
      mgos_hx711_get_value (mgos_hx711_set_offset offset w) =
        mgos_hx711_get_raw_data (mgos_hx711_set_offset offset w) - offset) ∧
    mgos_hx711_set_offset offset w = { w with hx711 := some { h with offset := offset } } ∧
    mgos_hx711_get_raw_data (mgos_hx711_set_offset offset w) = mgos_hx711_get_raw_data w := by
  refine ⟨?_, ?_, ?_, ?_⟩
  · simp [mgos_hx711_get_value, mgos_hx711_set_offset, mgos_hx711_get_raw_data, hw]
  · intro h1 h2
    simp [mgos_hx711_get_value, mgos_hx711_set_offset, mgos_hx711_get_raw_data, hw,
      int32_of_eq_self _ h1 h2]
  · simp [mgos_hx711_set_offset, hw]
  · simp [mgos_hx711_set_offset, mgos_hx711_get_raw_data, hw]

/-- Witness for C6: raw reading 100 and offset -25 give the value 125. -/
theorem get_value_eq_raw_minus_offset_witness :
    mgos_hx711_get_value (mgos_hx711_set_offset (-25)
      ⟨some { sample_handle with raw_data := 100 }, false, ⟨[], 0, 0⟩⟩) =
      mgos_hx711_get_raw_data (mgos_hx711_set_offset (-25)
        ⟨some { sample_handle with raw_data := 100 }, false, ⟨[], 0, 0⟩⟩) - (-25) :=
  (get_value_eq_raw_minus_offset
    ⟨some { sample_handle with raw_data := 100 }, false, ⟨[], 0, 0⟩⟩
    { sample_handle with raw_data := 100 } (-25) rfl).2.1 (by decide) (by decide)

/-! ## Bit-protocol reader -/

/-- Claim C8: the frame returned by `mgos_hx711_read_raw` is the sum of the 24 levels
sampled during the call, the `i`-th weighted `2 ^ (23 - i)`, so the first sample is the most
significant bit; the frame is below `2 ^ 24`, and the call consumes exactly 24 samples. -/
theorem read_raw_frame_msb_first (env : Env) (h : mgos_hx711) (s : Sys) :
    (mgos_hx711_read_raw env h s).1 =
      ∑ i in Finset.range 24, (env.level h.data_gpio (s.reads + i)).toNat * 2 ^ (23 - i) ∧
    (mgos_hx711_read_raw env h s).1 < 2 ^ 24 ∧
    (mgos_hx711_read_raw env h s).2.reads = s.reads + 24 := by
  refine ⟨mgos_hx711_read_raw_fst env h s, ?_, ?_⟩
  · rw [mgos_hx711_read_raw_fst]
    exact frame_sum_lt _
  · unfold mgos_hx711_read_raw
    simp only [portEXIT_CRITICAL]
    rw [read_raw_gain_loop_reads, read_raw_data_loop_snd env h 24 0 0 _ (by norm_num)]
    simp [portENTER_CRITICAL]

/-- Claim C9: for gain code 0, 1 or 2 the platform calls of one `mgos_hx711_read_raw` are
exactly those of `frame_read_events` with `gain + 1` trailing pulses.  Its GPIO operations
are 24 times (clock high, sample, clock low) followed by `gain + 1` times (clock high,
clock low): `24 + (gain + 1)` writes of high and as many writes of low to the clock pin,
24 samples, and the last GPIO operation is a write of low to the clock pin. -/
theorem read_raw_pulse_train (env : Env) (h : mgos_hx711) (s : Sys)
    (hg : h.gain = 0 ∨ h.gain = 1 ∨ h.gain = 2) :
    (mgos_hx711_read_raw env h s).2.trace =
      s.trace ++ frame_read_events h (fun i => env.level h.data_gpio (s.reads + i))
        (h.gain.toNat + 1) ∧
    (frame_read_events h (fun i => env.level h.data_gpio (s.reads + i))
        (h.gain.toNat + 1)).filter Event.is_gpio =
      (List.range 24).flatMap (fun i =>
        [Event.gpio_write h.clock_gpio true,
         Event.gpio_read h.data_gpio (env.level h.data_gpio (s.reads + i)),
         Event.gpio_write h.clock_gpio false]) ++
      (List.replicate (h.gain.toNat + 1)
        [Event.gpio_write h.clock_gpio true, Event.gpio_write h.clock_gpio false]).flatten ∧
    (frame_read_events h (fun i => env.level h.data_gpio (s.reads + i))
        (h.gain.toNat + 1)).countP (Event.is_write h.clock_gpio true) =
      24 + (h.gain.toNat + 1) ∧
    (frame_read_events h (fun i => env.level h.data_gpio (s.reads + i))
        (h.gain.toNat + 1)).countP (Event.is_write h.clock_gpio false) =
      24 + (h.gain.toNat + 1) ∧
    (frame_read_events h (fun i => env.level h.data_gpio (s.reads + i))
        (h.gain.toNat + 1)).countP Event.is_read = 24 ∧
    ((frame_read_events h (fun i => env.level h.data_gpio (s.reads + i))
        (h.gain.toNat + 1)).filter Event.is_gpio).getLast? =
      some (Event.gpio_write h.clock_gpio false) := by
  have hn : (h.gain + 1).toNat = h.gain.toNat + 1 := by omega
  refine ⟨?_, frame_read_events_gpio _ _ _, frame_read_events_count_write _ _ _ _,
    frame_read_events_count_write _ _ _ _, frame_read_events_count_read _ _ _, ?_⟩
  · rw [mgos_hx711_read_raw_snd env h s (by omega), hn]
  · rw [frame_read_events_gpio, List.replicate_succ', List.flatten_append]
    simp [← List.append_assoc]

/-- Witness for C9: gain code 2, all samples low. -/
theorem read_raw_pulse_train_witness :
    (mgos_hx711_read_raw (Env.of_levels (List.replicate 24 false))
        { sample_handle with gain := 2 } ⟨[], 0, 0⟩).2.trace.countP (Event.is_write 5 true) =
      27 := by
  have h := read_raw_pulse_train (Env.of_levels (List.replicate 24 false))
    { sample_handle with gain := 2 } ⟨[], 0, 0⟩ (by decide)
  rw [h.1]
  simpa [sample_handle] using h.2.2.1

/-! ## Uninitialised driver -/

/-- Claim C10: while `hx711` is `NULL` the getters return 0 and the setters, `power_up`,
`power_down` and `start_polling` return the driver as it was: no GPIO write, no timer, no
state change.  A disabled configuration makes `mgos_hx711_init` return true and leave a
`NULL` pointer `NULL`. -/
theorem uninitialized_api_noop (w : World) (hw : w.hx711 = none) :
    mgos_hx711_get_raw_data w = 0 ∧ mgos_hx711_get_value w = 0 ∧
    mgos_hx711_get_units w = Units.zero ∧
    (∀ offset, mgos_hx711_set_offset offset w = w) ∧
    (∀ scale, mgos_hx711_set_scale scale w = w) ∧
    mgos_hx711_power_up w = w ∧ mgos_hx711_power_down w = w ∧
    mgos_hx711_start_polling w = w ∧
    (∀ cfg env, cfg.enable = false → mgos_hx711_init cfg env w = (true, w)) := by
  refine ⟨?_, ?_, ?_, ?_, ?_, ?_, ?_, ?_, ?_⟩
  · simp [mgos_hx711_get_raw_data, hw]
  · simp [mgos_hx711_get_value, hw]
  · simp [mgos_hx711_get_units, hw]
  · intro offset; simp [mgos_hx711_set_offset, hw]
  · intro scale; simp [mgos_hx711_set_scale, hw]
  · simp [mgos_hx711_power_up, hw]
  · simp [mgos_hx711_power_down, hw]
  · simp [mgos_hx711_start_polling, hw]
  · intro cfg env he; simp [mgos_hx711_init, he]

/-- Witness for C10 on the driver before initialisation. -/
theorem uninitialized_api_noop_witness :
    World.boot.hx711 = none ∧ mgos_hx711_start_polling World.boot = World.boot :=
  ⟨rfl, (uninitialized_api_noop World.boot rfl).2.2.2.2.2.2.2.1⟩

/-! ## Auxiliary lemmas: one frame read, one dispatcher tick -/

theorem read_raw_gain_loop_min (h : mgos_hx711) :
    ∀ (fuel : Nat) (i : Int) (s : Sys),
      read_raw_gain_loop h fuel i s =
        { s with trace := s.trace ++
            (List.replicate (min fuel (h.gain + 1 - i).toNat) (gain_pulse h)).flatten } := by
  intro fuel
  induction fuel with
  | zero => intro i s; simp [read_raw_gain_loop]
  | succ n ih =>
    intro i s
    rw [read_raw_gain_loop]
    by_cases hle : i ≤ h.gain
    · rw [if_pos hle]
      simp only []
      rw [ih (i + 1)]
      have e : min (n + 1) (h.gain + 1 - i).toNat =
          min n (h.gain + 1 - (i + 1)).toNat + 1 := by omega
      rw [e, List.replicate_succ]
      simp [mgos_gpio_write, mgos_usleep, gain_pulse]
    · rw [if_neg hle]
      have : (h.gain + 1 - i).toNat = 0 := by omega
      simp [this]

theorem mgos_hx711_read_raw_eq (env : Env) (h : mgos_hx711) (s : Sys) :
    mgos_hx711_read_raw env h s =
      (frame_at env h.data_gpio s.reads,
        ⟨s.trace ++ frame_events_at env h s.reads, s.reads + 24, s.timers⟩) := by
  have h1 := mgos_hx711_read_raw_fst env h s
  refine Prod.ext ?_ ?_
  · simpa [frame_at] using h1
  · unfold mgos_hx711_read_raw
    simp only []
    rw [read_raw_data_loop_snd env h 24 0 0 _ (by norm_num), read_raw_gain_loop_min]
    simp [portENTER_CRITICAL, portEXIT_CRITICAL, frame_events_at, frame_read_events, gain_pulses]

theorem mgos_hx711_read_data_eq (env : Env) (h : mgos_hx711) (s : Sys) :
    mgos_hx711_read_data env h s =
      (read_data_decode (frame_at env h.data_gpio s.reads),
        ⟨s.trace ++ frame_events_at env h s.reads, s.reads + 24, s.timers⟩) := by
  unfold mgos_hx711_read_data
  simp only [mgos_hx711_read_raw_eq]

theorem frame_at_lt (env : Env) (pin : Int) (k : Nat) : frame_at env pin k < 2 ^ 24 :=
  frame_sum_lt _

theorem frame_events_at_state (env : Env) (h : mgos_hx711) (st : mgos_hx711_state_t) (k : Nat) :
    frame_events_at env { h with state := st } k = frame_events_at env h k := rfl

theorem dispatcher_idle_or_busy (env : Env) (arg : Option multi_sampling_ctx) (h : mgos_hx711)
    (s : Sys) (hs : h.state = HX711_IDLE ∨ h.state = HX711_BUSY) :
    mgos_hx711_dispatcher env arg h s = some ⟨h, arg, s⟩ := by
  unfold mgos_hx711_dispatcher
  rcases hs with hs | hs <;> simp [hs]

theorem dispatcher_waits (env : Env) (arg : Option multi_sampling_ctx) (h : mgos_hx711)
    (s : Sys) (hi : h.state ≠ HX711_IDLE) (hb : h.state ≠ HX711_BUSY)
    (hr : env.level h.data_gpio s.reads = true) :
    mgos_hx711_dispatcher env arg h s =
      some ⟨h, arg, ⟨s.trace ++ [Event.gpio_read h.data_gpio true], s.reads + 1, s.timers⟩⟩ := by
  unfold mgos_hx711_dispatcher
  cases hst : h.state <;> simp_all [mgos_hx711_is_ready, mgos_gpio_read]

theorem dispatcher_set_gain_ready (env : Env) (arg : Option multi_sampling_ctx)
    (h : mgos_hx711) (s : Sys) (hs : h.state = HX711_SET_GAIN)
    (hr : env.level h.data_gpio s.reads = false) :
    mgos_hx711_dispatcher env arg h s =
      some ⟨{ h with state := HX711_IDLE }, arg,
        ⟨s.trace ++ [Event.gpio_read h.data_gpio false, Event.clear_timer h.timer] ++
          frame_events_at env h (s.reads + 1), s.reads + 25, s.timers⟩⟩ := by
  unfold mgos_hx711_dispatcher
  simp [hs, mgos_hx711_is_ready, mgos_gpio_read, hr, mgos_hx711_read_data_eq,
    mgos_clear_timer, frame_events_at_state]

theorem dispatcher_read_ready (env : Env) (arg : Option multi_sampling_ctx)
    (h : mgos_hx711) (s : Sys) (hs : h.state = HX711_READ)
    (hr : env.level h.data_gpio s.reads = false) :
    mgos_hx711_dispatcher env arg h s =
      some ⟨{ h with raw_data := read_data_decode (frame_at env h.data_gpio (s.reads + 1)),
                     state := HX711_IDLE }, arg,
        ⟨s.trace ++ [Event.gpio_read h.data_gpio false, Event.clear_timer h.timer] ++
          frame_events_at env h (s.reads + 1), s.reads + 25, s.timers⟩⟩ := by
  unfold mgos_hx711_dispatcher
  simp [hs, mgos_hx711_is_ready, mgos_gpio_read, hr, mgos_hx711_read_data_eq,
    mgos_clear_timer, frame_events_at_state]

theorem dispatcher_average_accumulate (env : Env) (c : multi_sampling_ctx)
    (h : mgos_hx711) (s : Sys) (hs : h.state = HX711_READ_AVERAGE)
    (hr : env.level h.data_gpio s.reads = false) (hc : c.attempt ≤ c.times) :
    mgos_hx711_dispatcher env (some c) h s =
      some ⟨h, some ⟨c.times, (c.attempt + 1) % 2 ^ 8,
          int32_of (c.sum + read_data_decode (frame_at env h.data_gpio (s.reads + 1)))⟩,
        ⟨s.trace ++ [Event.gpio_read h.data_gpio false] ++
          frame_events_at env h (s.reads + 1), s.reads + 25, s.timers⟩⟩ := by
  have hh : ({ h with state := HX711_READ_AVERAGE } : mgos_hx711) = h := by
    cases h; simp_all
  unfold mgos_hx711_dispatcher
  simp [hs, mgos_hx711_is_ready, mgos_gpio_read, hr, mgos_hx711_read_data_eq, hc,
    frame_events_at_state]
  simpa [hs] using hh

theorem dispatcher_average_finish (env : Env) (c : multi_sampling_ctx)
    (h : mgos_hx711) (s : Sys) (hs : h.state = HX711_READ_AVERAGE)
    (hr : env.level h.data_gpio s.reads = false) (hc : c.times < c.attempt)
    (h0 : c.times ≠ 0) :
    mgos_hx711_dispatcher env (some c) h s =
      some ⟨{ h with raw_data := int32_of (Int.tdiv c.sum c.times), state := HX711_IDLE },
        some ⟨c.times, 0, 0⟩,
        ⟨s.trace ++ [Event.gpio_read h.data_gpio false, Event.clear_timer h.timer],
          s.reads + 1, s.timers⟩⟩ := by
  unfold mgos_hx711_dispatcher
  simp [hs, mgos_hx711_is_ready, mgos_gpio_read, hr, mgos_clear_timer, Nat.not_le.mpr hc, h0]

theorem frame_events_at_count_enter (env : Env) (h : mgos_hx711) (k : Nat) :
    (frame_events_at env h k).countP Event.is_enter = 1 := by
  have hp : ∀ n : Nat, (List.replicate n (gain_pulse h)).flatten.countP Event.is_enter = 0 := by
    intro n
    induction n with
    | zero => simp
    | succ n ih => simp [List.replicate_succ, ih, gain_pulse, Event.is_enter, List.countP_cons]
  unfold frame_events_at frame_read_events
  simp only [List.countP_append, hp, range_24]
  simp [List.flatMap, data_pulse, Event.is_enter, List.countP_cons]

theorem frame_events_at_count_exit (env : Env) (h : mgos_hx711) (k : Nat) :
    (frame_events_at env h k).countP Event.is_exit = 1 := by
  have hp : ∀ n : Nat, (List.replicate n (gain_pulse h)).flatten.countP Event.is_exit = 0 := by
    intro n
    induction n with
    | zero => simp
    | succ n ih => simp [List.replicate_succ, ih, gain_pulse, Event.is_exit, List.countP_cons]
  unfold frame_events_at frame_read_events
  simp only [List.countP_append, hp, range_24]
  simp [List.flatMap, data_pulse, Event.is_exit, List.countP_cons]

theorem frame_events_at_count_clear (env : Env) (h : mgos_hx711) (k : Nat) :
    (frame_events_at env h k).countP Event.is_clear = 0 := by
  have hp : ∀ n : Nat, (List.replicate n (gain_pulse h)).flatten.countP Event.is_clear = 0 := by
    intro n
    induction n with
    | zero => simp
    | succ n ih => simp [List.replicate_succ, ih, gain_pulse, Event.is_clear, List.countP_cons]
  unfold frame_events_at frame_read_events
  simp only [List.countP_append, hp, range_24]
  simp [List.flatMap, data_pulse, Event.is_clear, List.countP_cons]

/-- The platform calls of a frame read strictly between entering and leaving the critical
section: the 24 data pulses followed by the gain pulses. -/
theorem frame_events_at_shape (env : Env) (h : mgos_hx711) (k : Nat) :
    frame_events_at env h k =
      [Event.enter_critical] ++
        ((List.range 24).flatMap (fun i => data_pulse h (env.level h.data_gpio (k + i))) ++
          (List.replicate (gain_pulses h) (gain_pulse h)).flatten) ++
        [Event.exit_critical] := by
  simp [frame_events_at, frame_read_events]

theorem pulses_not_critical (h : mgos_hx711) (b : Nat → Bool) (n : Nat) :
    ∀ e ∈ (List.range 24).flatMap (fun i => data_pulse h (b i)) ++
        (List.replicate n (gain_pulse h)).flatten,
      e ≠ Event.enter_critical ∧ e ≠ Event.exit_critical := by
  intro e he
  rw [List.mem_append] at he
  rcases he with he | he
  · rw [List.mem_flatMap] at he
    obtain ⟨i, _, hi⟩ := he
    simp [data_pulse] at hi
    rcases hi with rfl | rfl | rfl | rfl | rfl <;> simp
  · rw [List.mem_flatten] at he
    obtain ⟨l, hl, hel⟩ := he
    rw [List.mem_replicate] at hl
    rw [hl.2] at hel
    simp [gain_pulse] at hel
    rcases hel with rfl | rfl | rfl | rfl <;> simp

/-! ## Polling orchestrator -/

/-- Claim C11: on an initialised driver `mgos_hx711_start_polling` returns the driver as it
was when the poll period is not positive.  With a positive poll period and a poll rate
above 1 (and within `int8_t`) it makes exactly one platform call, registering a repeating
timer at the poll period for `mgos_hx711_average_reading_cb` with a sampling context of
target count `poll_rate`, attempt 0 and sum 0; with a positive poll period and poll rate 1
it makes exactly one platform call, registering a repeating timer at the poll period for
`mgos_hx711_single_reading_cb` with `NULL`.  The handle is never changed. -/
theorem start_polling_registers (w : World) (h : mgos_hx711) (hw : w.hx711 = some h) :
    (h.poll_period ≤ 0 → mgos_hx711_start_polling w = w) ∧
    (0 < h.poll_period → 1 < h.poll_rate → h.poll_rate ≤ 127 →
      mgos_hx711_start_polling w =
        { w with sys :=
            ⟨w.sys.trace ++ [Event.set_timer (w.sys.timers + 1) h.poll_period true
                Callback.average_reading_cb (some ⟨h.poll_rate.toNat, 0, 0⟩)],
              w.sys.reads, w.sys.timers + 1⟩ }) ∧
    (0 < h.poll_period → h.poll_rate = 1 →
      mgos_hx711_start_polling w =
        { w with sys :=
            ⟨w.sys.trace ++ [Event.set_timer (w.sys.timers + 1) h.poll_period true
                Callback.single_reading_cb none],
              w.sys.reads, w.sys.timers + 1⟩ }) ∧
    (mgos_hx711_start_polling w).hx711 = some h ∧
    (mgos_hx711_start_polling w).released = w.released := by
  refine ⟨?_, ?_, ?_, ?_, ?_⟩
  · intro hp
    simp [mgos_hx711_start_polling, hw, hp]
  · intro hp hr hr'
    have e : uint8_of h.poll_rate = h.poll_rate.toNat := by
      unfold uint8_of
      congr 1
      omega
    simp [mgos_hx711_start_polling, hw, Int.not_le.mpr hp, hr, mgos_set_timer,
      MGOS_TIMER_REPEAT, e]
  · intro hp hr
    simp [mgos_hx711_start_polling, hw, Int.not_le.mpr hp, hr, mgos_set_timer,
      MGOS_TIMER_REPEAT]
  · unfold mgos_hx711_start_polling
    simp only [hw]
    split_ifs <;> first | exact hw | rfl
  · unfold mgos_hx711_start_polling
    simp only [hw]
    split_ifs <;> rfl

/-- Witness for C11: poll period 1000 and poll rate 2 register the averaged-read timer with
the context (2, 0, 0). -/
theorem start_polling_registers_witness :
    mgos_hx711_start_polling ⟨some sample_handle, false, ⟨[], 0, 0⟩⟩ =
      ⟨some sample_handle, false,
        ⟨[Event.set_timer 1 1000 true Callback.average_reading_cb (some ⟨2, 0, 0⟩)], 0, 1⟩⟩ :=
  (start_polling_registers ⟨some sample_handle, false, ⟨[], 0, 0⟩⟩ sample_handle rfl).2.1
    (by decide) (by decide) (by decide)

/-! ## Dispatcher ticks on a ready device -/

/-- Claim C12: in state `HX711_READ`, a tick on which the data line is low returns the
handle with `raw_data` set to the decoding of the frame shifted in (the frame itself, or
the frame minus `2 ^ 24` when bit 23 is set) and state `HX711_IDLE`, every other field as
it was; the platform calls are the readiness sample, one `mgos_clear_timer` of the stored
timer and the calls of one frame read, so the critical section is entered once and one
timer is cancelled. -/
theorem dispatcher_read_tick (env : Env) (arg : Option multi_sampling_ctx) (h : mgos_hx711)
    (s : Sys) (hs : h.state = HX711_READ) (hr : env.level h.data_gpio s.reads = false) :
    mgos_hx711_dispatcher env arg h s =
      some ⟨{ h with raw_data := read_data_decode (frame_at env h.data_gpio (s.reads + 1)),
                     state := HX711_IDLE }, arg,
        ⟨s.trace ++ [Event.gpio_read h.data_gpio false, Event.clear_timer h.timer] ++
          frame_events_at env h (s.reads + 1), s.reads + 25, s.timers⟩⟩ ∧
    read_data_decode (frame_at env h.data_gpio (s.reads + 1)) =
      (if (frame_at env h.data_gpio (s.reads + 1)).testBit 23
        then (frame_at env h.data_gpio (s.reads + 1) : Int) - 2 ^ 24
        else (frame_at env h.data_gpio (s.reads + 1) : Int)) ∧
    ([Event.gpio_read h.data_gpio false, Event.clear_timer h.timer] ++
        frame_events_at env h (s.reads + 1)).countP Event.is_enter = 1 ∧
    ([Event.gpio_read h.data_gpio false, Event.clear_timer h.timer] ++
        frame_events_at env h (s.reads + 1)).countP Event.is_clear = 1 := by
  refine ⟨dispatcher_read_ready env arg h s hs hr,
    read_data_decode_eq _ (frame_at_lt _ _ _), ?_, ?_⟩
  · rw [List.countP_append, frame_events_at_count_enter]
    simp [Event.is_enter, List.countP_cons]
  · rw [List.countP_append, frame_events_at_count_clear]
    simp [Event.is_clear, List.countP_cons]

/-- Witness for C12: the frame `0x800000` is stored as -8388608. -/
theorem dispatcher_read_tick_witness :
    (mgos_hx711_dispatcher (Env.of_levels (false :: frame_levels 0x800000)) none
        { sample_handle with state := HX711_READ } ⟨[], 0, 0⟩).map
      (fun t => (t.hx.state, t.hx.raw_data)) = some (HX711_IDLE, -8388608) := by
  have h := (dispatcher_read_tick (Env.of_levels (false :: frame_levels 0x800000)) none
    { sample_handle with state := HX711_READ } ⟨[], 0, 0⟩ rfl (by decide)).1
  rw [h]
  decide

/-! ## Critical section -/

/-- Claim C17: for every gain and every input, the platform calls of
`mgos_hx711_read_raw` are `portENTER_CRITICAL`, then the 24 data pulses and the gain
pulses, then `portEXIT_CRITICAL`.  The pulses contain no enter and no exit, so the section
is entered once and left once, and every GPIO operation of the call lies between the
two. -/
theorem read_raw_critical_section (env : Env) (h : mgos_hx711) (s : Sys) :
    (mgos_hx711_read_raw env h s).2.trace =
      s.trace ++ ([Event.enter_critical] ++
        ((List.range 24).flatMap
            (fun i => data_pulse h (env.level h.data_gpio (s.reads + i))) ++
          (List.replicate (gain_pulses h) (gain_pulse h)).flatten) ++
        [Event.exit_critical]) ∧
    (∀ e ∈ (List.range 24).flatMap
          (fun i => data_pulse h (env.level h.data_gpio (s.reads + i))) ++
        (List.replicate (gain_pulses h) (gain_pulse h)).flatten,
      e ≠ Event.enter_critical ∧ e ≠ Event.exit_critical) ∧
    (frame_events_at env h s.reads).countP Event.is_enter = 1 ∧
    (frame_events_at env h s.reads).countP Event.is_exit = 1 ∧
    (0 ≤ h.gain → h.gain ≤ 127 → gain_pulses h = h.gain.toNat + 1) := by
  refine ⟨?_, pulses_not_critical _ _ _, frame_events_at_count_enter _ _ _,
    frame_events_at_count_exit _ _ _, ?_⟩
  · rw [mgos_hx711_read_raw_eq, frame_events_at_shape]
  · intro h0 h1
    unfold gain_pulses
    omega

/-- Witness for C17: with gain code 2 there are three gain pulses. -/
theorem read_raw_critical_section_witness :
    gain_pulses { sample_handle with gain := 2 } = 3 :=
  (read_raw_critical_section (Env.of_levels []) { sample_handle with gain := 2 }
    ⟨[], 0, 0⟩).2.2.2.2 (by decide) (by decide)

/-! ## Frame decoder: range and injectivity -/

/-- Claim C20: on a 24-bit frame the decoded value lies in `-2 ^ 23 .. 2 ^ 23 - 1`, its
residue modulo `2 ^ 24` is the frame, and two 24-bit frames with the same decoding are
equal. -/
theorem read_data_decode_faithful (raw : Nat) (h : raw < 2 ^ 24) :
    -2 ^ 23 ≤ read_data_decode raw ∧ read_data_decode raw ≤ 2 ^ 23 - 1 ∧
    read_data_decode raw % 2 ^ 24 = raw ∧
    ∀ other : Nat, other < 2 ^ 24 → read_data_decode other = read_data_decode raw →
      other = raw := by
  have key : ∀ r : Nat, r < 2 ^ 24 →
      -2 ^ 23 ≤ read_data_decode r ∧ read_data_decode r ≤ 2 ^ 23 - 1 ∧
        read_data_decode r % 2 ^ 24 = r := by
    intro r hr
    have ht := testBit23_iff r hr
    rw [read_data_decode_eq r hr]
    cases hb : r.testBit 23
    · rw [hb] at ht
      have : ¬ 2 ^ 23 ≤ r := by simpa using ht
      simp
      omega
    · rw [hb] at ht
      have : 2 ^ 23 ≤ r := by simpa using ht
      simp
      omega
  refine ⟨(key raw h).1, (key raw h).2.1, (key raw h).2.2, ?_⟩
  intro other ho heq
  have h1 := (key other ho).2.2
  have h2 := (key raw h).2.2
  rw [heq] at h1
  have : (other : Int) = raw := by rw [← h1, ← h2]
  exact_mod_cast this

/-- Witness for C20 at the frame `0xFFFFFE`, which decodes to -2. -/
theorem read_data_decode_faithful_witness :
    0xFFFFFE < 2 ^ 24 ∧ read_data_decode 0xFFFFFE % 2 ^ 24 = (0xFFFFFE : Nat) :=
  ⟨by decide, (read_data_decode_faithful 0xFFFFFE (by decide)).2.2.1⟩

/-! ## Auxiliary lemmas: initialisation and runs -/

theorem configure_driver_success (cfg : mgos_config_hx711) (env : Env) (w : World)
    (hok : (mgos_hx711_configure_driver cfg env w).1 = true) :
    ∃ h0 : mgos_hx711,
      (mgos_hx711_configure_driver cfg env w).2.hx711 = some h0 ∧
      (mgos_hx711_configure_driver cfg env w).2.released = false ∧
      h0.state = HX711_SET_GAIN ∧ h0.raw_data = 0 ∧ h0.offset = 0 ∧ h0.scale = F32.one ∧
      config_fields h0 = (int8_of cfg.data_gpio, int8_of cfg.clock_gpio, int8_of cfg.gain,
        int32_of cfg.poll_period, int8_of cfg.poll_rate, int8_of cfg.delay_us) ∧
      valid_config h0 := by
  unfold mgos_hx711_configure_driver at hok ⊢
  simp only [] at hok ⊢
  split_ifs at hok ⊢ <;>
    simp_all [mgos_hx711_set_gain, config_fields, valid_config, calloc_mgos_hx711,
      mgos_hx711_power_up, mgos_hx711_power_down]
  omega

theorem run_ticks_idle (env : Env) :
    ∀ (n : Nat) (t : Tick), t.hx.state = HX711_IDLE → run_ticks env n t = some t := by
  intro n
  induction n with
  | zero => intro t _; rfl
  | succ n ih =>
    intro t ht
    rw [run_ticks, dispatcher_idle_or_busy env t.ctx t.hx t.sys (Or.inl ht)]
    exact ih _ ht

theorem init_enabled (cfg : mgos_config_hx711) (env : Env) (w : World)
    (he : cfg.enable = true) :
    (mgos_hx711_init cfg env w).2 = (mgos_hx711_configure_driver cfg env w).2 := by
  simp [mgos_hx711_init, he]

theorem run_ticks_set_gain (env : Env) (arg : Option multi_sampling_ctx) (h : mgos_hx711)
    (hs : h.state = HX711_SET_GAIN) :
    ∀ (n : Nat) (s : Sys), ∃ t, run_ticks env n ⟨h, arg, s⟩ = some t ∧
      (ready_ticks env n ⟨h, arg, s⟩ = 0 → t.hx = h) ∧
      (0 < ready_ticks env n ⟨h, arg, s⟩ → t.hx = { h with state := HX711_IDLE }) := by
  intro n
  induction n with
  | zero => intro s; exact ⟨_, rfl, fun _ => rfl, fun hc => absurd hc (by simp [ready_ticks])⟩
  | succ n ih =>
    intro s
    cases hr : env.level h.data_gpio s.reads
    · have hd := dispatcher_set_gain_ready env arg h s hs hr
      have hrun := run_ticks_idle env n
        ⟨{ h with state := HX711_IDLE }, arg,
          ⟨s.trace ++ [Event.gpio_read h.data_gpio false, Event.clear_timer h.timer] ++
            frame_events_at env h (s.reads + 1), s.reads + 25, s.timers⟩⟩ rfl
      refine ⟨⟨{ h with state := HX711_IDLE }, arg,
          ⟨s.trace ++ [Event.gpio_read h.data_gpio false, Event.clear_timer h.timer] ++
            frame_events_at env h (s.reads + 1), s.reads + 25, s.timers⟩⟩, ?_, ?_, ?_⟩
      · rw [run_ticks]
        simp only [hd, Option.some_bind]
        exact hrun
      · intro hc
        simp [ready_ticks, hr] at hc
      · intro _
        rfl
    · have hd := dispatcher_waits env arg h s (by simp [hs]) (by simp [hs]) hr
      obtain ⟨t, ht, h1, h2⟩ := ih ⟨s.trace ++ [Event.gpio_read h.data_gpio true], s.reads + 1,
        s.timers⟩
      refine ⟨t, ?_, ?_, ?_⟩
      · rw [run_ticks]
        simp only [hd, Option.some_bind]
        exact ht
      · intro hc
        apply h1
        simpa [ready_ticks, hr, hd] using hc
      · intro hc
        apply h2
        simpa [ready_ticks, hr, hd] using hc

/-! ## Gain-set cycle -/

/-- Claim C14: in state `HX711_SET_GAIN`, a tick on which the data line is low returns the
handle with state `HX711_IDLE` and every other field, `raw_data`, `offset` and `scale`
included, as it was; the platform calls are the readiness sample, one `mgos_clear_timer`
of the stored timer and the calls of one frame read.  After an initialisation in which
`mgos_hx711_configure_driver` succeeds the handle is in `HX711_SET_GAIN`; dispatcher ticks
leave it untouched while none was ready, and from the first ready tick on it is in
`HX711_IDLE` with `raw_data = 0`, `offset = 0` and `scale = 1`. -/
theorem dispatcher_set_gain_tick (env : Env) (arg : Option multi_sampling_ctx)
    (h : mgos_hx711) (s : Sys) (hs : h.state = HX711_SET_GAIN)
    (hr : env.level h.data_gpio s.reads = false) :
    mgos_hx711_dispatcher env arg h s =
      some ⟨{ h with state := HX711_IDLE }, arg,
        ⟨s.trace ++ [Event.gpio_read h.data_gpio false, Event.clear_timer h.timer] ++
          frame_events_at env h (s.reads + 1), s.reads + 25, s.timers⟩⟩ ∧
    ([Event.gpio_read h.data_gpio false, Event.clear_timer h.timer] ++
        frame_events_at env h (s.reads + 1)).countP Event.is_enter = 1 ∧
    ([Event.gpio_read h.data_gpio false, Event.clear_timer h.timer] ++
        frame_events_at env h (s.reads + 1)).countP Event.is_clear = 1 ∧
    ∀ (cfg : mgos_config_hx711) (env0 : Env) (w : World), cfg.enable = true →
      (mgos_hx711_configure_driver cfg env0 w).1 = true →
      ∃ h0 : mgos_hx711, (mgos_hx711_init cfg env0 w).2.hx711 = some h0 ∧
        h0.state = HX711_SET_GAIN ∧
        ∀ (env1 : Env) (arg1 : Option multi_sampling_ctx) (s1 : Sys) (n : Nat),
          ∃ t, run_ticks env1 n ⟨h0, arg1, s1⟩ = some t ∧
            (ready_ticks env1 n ⟨h0, arg1, s1⟩ = 0 → t.hx = h0) ∧
            (0 < ready_ticks env1 n ⟨h0, arg1, s1⟩ →
              t.hx.state = HX711_IDLE ∧ t.hx.raw_data = 0 ∧ t.hx.offset = 0 ∧
                t.hx.scale = F32.one) := by
  refine ⟨dispatcher_set_gain_ready env arg h s hs hr, ?_, ?_, ?_⟩
  · rw [List.countP_append, frame_events_at_count_enter]
    simp [Event.is_enter, List.countP_cons]
  · rw [List.countP_append, frame_events_at_count_clear]
    simp [Event.is_clear, List.countP_cons]
  · intro cfg env0 w he hok
    obtain ⟨h0, e1, _, e3, e4, e5, e6, _, _⟩ := configure_driver_success cfg env0 w hok
    refine ⟨h0, by rw [init_enabled cfg env0 w he]; exact e1, e3, ?_⟩
    intro env1 arg1 s1 n
    obtain ⟨t, ht, h1, h2⟩ := run_ticks_set_gain env1 arg1 h0 e3 n s1
    refine ⟨t, ht, h1, ?_⟩
    intro hc
    rw [h2 hc]
    exact ⟨rfl, e4, e5, e6⟩

/-- Witness for C14: after initialising with a valid configuration, one tick that is not
ready and one that is leave the machine idle with the start-up readings. -/
theorem dispatcher_set_gain_tick_witness :
    (run_ticks (Env.of_levels (true :: ready_tick_levels 5)) 2
        ⟨{ sample_handle with state := HX711_SET_GAIN }, none, ⟨[], 0, 0⟩⟩).map
      (fun t => (t.hx.state, t.hx.raw_data)) = some (HX711_IDLE, 0) ∧
    (mgos_hx711_dispatcher (Env.of_levels (ready_tick_levels 5)) none
        { sample_handle with state := HX711_SET_GAIN } ⟨[], 0, 0⟩).map (fun t => t.hx) =
      some sample_handle :=
  ⟨by decide, by
    rw [(dispatcher_set_gain_tick (Env.of_levels (ready_tick_levels 5)) none
      { sample_handle with state := HX711_SET_GAIN } ⟨[], 0, 0⟩ rfl (by decide)).1]
    decide⟩

theorem tdiv_int32 (a : Int) (n : Nat) (h1 : -2 ^ 31 ≤ a) (h2 : a < 2 ^ 31) :
    int32_of (Int.tdiv a n) = Int.tdiv a n := by
  apply int32_of_eq_self
  · rcases le_or_lt 0 a with ha | ha
    · have := Int.tdiv_nonneg ha (Int.ofNat_nonneg n)
      omega
    · have e : Int.tdiv a n = -(Int.tdiv (-a) n) := by rw [Int.neg_tdiv]; omega
      have h3 : Int.tdiv (-a) n = (-a) / n := Int.tdiv_eq_ediv (by omega) (Int.ofNat_nonneg n)
      have h4 : (-a) / (n : Int) ≤ -a := Int.ediv_le_self _ (by omega)
      omega
  · rcases le_or_lt 0 a with ha | ha
    · have h3 : Int.tdiv a n = a / n := Int.tdiv_eq_ediv ha (Int.ofNat_nonneg n)
      have h4 : a / (n : Int) ≤ a := Int.ediv_le_self _ ha
      omega
    · have e : Int.tdiv a n = -(Int.tdiv (-a) n) := by rw [Int.neg_tdiv]; omega
      have := Int.tdiv_nonneg (show (0 : Int) ≤ -a by omega) (Int.ofNat_nonneg n)
      omega

/-! ## Auxiliary lemmas: what callbacks leave unchanged -/

/-- What a dispatcher tick can change in the handle: only `state` and `raw_data`; the state
stays or becomes `HX711_IDLE`. -/
theorem dispatcher_frame (env : Env) (arg : Option multi_sampling_ctx) (h : mgos_hx711)
    (s : Sys) (t : Tick) (ht : mgos_hx711_dispatcher env arg h s = some t) :
    config_fields t.hx = config_fields h ∧ t.hx.offset = h.offset ∧ t.hx.scale = h.scale ∧
    t.hx.timer = h.timer ∧ t.hx.cfg = h.cfg ∧
    (t.hx.state = h.state ∨ t.hx.state = HX711_IDLE) := by
  unfold mgos_hx711_dispatcher at ht
  cases hst : h.state <;> simp only [hst] at ht
  · cases ht; simp [hst]
  · cases ht; simp [hst]
  · split at ht <;> cases ht <;> simp [hst, config_fields]
  · split at ht <;> cases ht <;> simp [hst, config_fields]
  · split at ht
    · cases ht; simp [hst]
    · cases arg with
      | none => simp at ht
      | some c =>
        simp only [] at ht
        split at ht
        · cases ht; simp [config_fields]
        · split at ht
          · simp at ht
          · cases ht; simp [config_fields]

theorem dispatcher_total (env : Env) (arg : Option multi_sampling_ctx) (h : mgos_hx711)
    (s : Sys) (hc : h.state ≠ HX711_READ_AVERAGE ∨ ∃ c, arg = some c ∧ c.times ≠ 0) :
    ∃ t, mgos_hx711_dispatcher env arg h s = some t := by
  unfold mgos_hx711_dispatcher
  cases hst : h.state <;> simp only []
  · exact ⟨_, rfl⟩
  · exact ⟨_, rfl⟩
  · split <;> exact ⟨_, rfl⟩
  · split <;> exact ⟨_, rfl⟩
  · rcases hc with hc | ⟨c, rfl, hc⟩
    · exact absurd hst hc
    · simp only [if_neg hc]
      split
      · exact ⟨_, rfl⟩
      · split <;> exact ⟨_, rfl⟩

theorem reading_cb_frame (arg : Option multi_sampling_ctx) (h : mgos_hx711) (s : Sys) :
    (config_fields (mgos_hx711_single_reading_cb arg h s).1 = config_fields h ∧
      ((mgos_hx711_single_reading_cb arg h s).1.state = h.state ∨
        (mgos_hx711_single_reading_cb arg h s).1.state = HX711_READ)) ∧
    (config_fields (mgos_hx711_average_reading_cb arg h s).1 = config_fields h ∧
      ((mgos_hx711_average_reading_cb arg h s).1.state = h.state ∨
        (mgos_hx711_average_reading_cb arg h s).1.state = HX711_READ_AVERAGE)) := by
  unfold mgos_hx711_single_reading_cb mgos_hx711_average_reading_cb
  refine ⟨?_, ?_⟩ <;> split <;> simp [config_fields]

theorem fire_frame (env : Env) (cb : Callback) (t u : Tick) (hf : fire env cb t = some u) :
    config_fields u.hx = config_fields t.hx ∧
    (u.hx.state = t.hx.state ∨ u.hx.state = HX711_IDLE ∨ u.hx.state = HX711_READ ∨
      u.hx.state = HX711_READ_AVERAGE) := by
  cases cb with
  | dispatcher =>
    have := dispatcher_frame env t.ctx t.hx t.sys u hf
    exact ⟨this.1, this.2.2.2.2.2.elim Or.inl (fun h => Or.inr (Or.inl h))⟩
  | single_reading_cb =>
    have := (reading_cb_frame none t.hx t.sys).1
    simp only [fire, Option.some.injEq] at hf
    subst hf
    exact ⟨this.1, this.2.elim Or.inl (fun h => Or.inr (Or.inr (Or.inl h)))⟩
  | average_reading_cb =>
    have := (reading_cb_frame t.ctx t.hx t.sys).2
    simp only [fire, Option.some.injEq] at hf
    subst hf
    exact ⟨this.1, this.2.elim Or.inl (fun h => Or.inr (Or.inr (Or.inr h)))⟩

theorem run_callbacks_frame (env : Env) :
    ∀ (cbs : List Callback) (t u : Tick), run_callbacks env cbs t = some u →
      config_fields u.hx = config_fields t.hx ∧
      (u.hx.state = t.hx.state ∨ u.hx.state = HX711_IDLE ∨ u.hx.state = HX711_READ ∨
        u.hx.state = HX711_READ_AVERAGE) := by
  intro cbs
  induction cbs with
  | nil =>
    intro t u hu
    simp only [run_callbacks, Option.some.injEq] at hu
    subst hu
    exact ⟨rfl, Or.inl rfl⟩
  | cons cb cbs ih =>
    intro t u hu
    rw [run_callbacks] at hu
    cases hf : fire env cb t with
    | none => simp [hf] at hu
    | some v =>
      simp only [hf, Option.some_bind] at hu
      have h1 := fire_frame env cb t v hf
      have h2 := ih v u hu
      refine ⟨h2.1.trans h1.1, ?_⟩
      rcases h2.2 with h | h
      · rw [h]; exact h1.2
      · exact Or.inr h

theorem valid_config_congr (a b : mgos_hx711) (hab : config_fields a = config_fields b)
    (hb : valid_config b) : valid_config a := by
  simp only [config_fields, Prod.mk.injEq] at hab
  obtain ⟨h1, h2, h3, h4, h5, _⟩ := hab
  unfold valid_config at hb ⊢
  rw [h1, h2, h3, h4, h5]
  exact hb

/-! ## Data-model invariant -/

/-- Claim C15: when `mgos_hx711_configure_driver` succeeds, the handle it leaves behind is
live and satisfies the data-model invariant (pins non-negative and distinct, gain code 0, 1
or 2, poll rate at least 1, poll period non-negative).  Every run of timer callbacks from
that handle keeps the configuration fields, hence the invariant; and in general a
dispatcher tick, the two read requests, `start_polling`, `set_offset`, `set_scale`,
`power_up` and `power_down` leave the configuration fields of any handle unchanged. -/
theorem config_invariant (cfg : mgos_config_hx711) (env : Env) (w : World)
    (hok : (mgos_hx711_configure_driver cfg env w).1 = true) :
    ∃ h0 : mgos_hx711,
      (mgos_hx711_configure_driver cfg env w).2.hx711 = some h0 ∧
      (mgos_hx711_configure_driver cfg env w).2.released = false ∧
      valid_config h0 ∧
      (∀ (env1 : Env) (cbs : List Callback) (ctx : Option multi_sampling_ctx) (s : Sys)
          (u : Tick), run_callbacks env1 cbs ⟨h0, ctx, s⟩ = some u →
        config_fields u.hx = config_fields h0 ∧ valid_config u.hx) ∧
      (∀ (env1 : Env) (arg : Option multi_sampling_ctx) (h : mgos_hx711) (s : Sys) (t : Tick),
        mgos_hx711_dispatcher env1 arg h s = some t → config_fields t.hx = config_fields h) ∧
      (∀ (arg : Option multi_sampling_ctx) (h : mgos_hx711) (s : Sys),
        config_fields (mgos_hx711_single_reading_cb arg h s).1 = config_fields h ∧
        config_fields (mgos_hx711_average_reading_cb arg h s).1 = config_fields h) ∧
      (∀ (w1 : World) (offset : Int) (scale : F32),
        (mgos_hx711_start_polling w1).hx711.map config_fields =
          w1.hx711.map config_fields ∧
        (mgos_hx711_set_offset offset w1).hx711.map config_fields =
          w1.hx711.map config_fields ∧
        (mgos_hx711_set_scale scale w1).hx711.map config_fields =
          w1.hx711.map config_fields ∧
        (mgos_hx711_power_up w1).hx711.map config_fields = w1.hx711.map config_fields ∧
        (mgos_hx711_power_down w1).hx711.map config_fields =
          w1.hx711.map config_fields) := by
  obtain ⟨h0, e1, e2, _, _, _, _, _, e8⟩ := configure_driver_success cfg env w hok
  refine ⟨h0, e1, e2, e8, ?_, ?_, ?_, ?_⟩
  · intro env1 cbs ctx s u hu
    have hf := (run_callbacks_frame env1 cbs _ u hu).1
    exact ⟨hf, valid_config_congr _ _ hf e8⟩
  · intro env1 arg h s t ht
    exact (dispatcher_frame env1 arg h s t ht).1
  · intro arg h s
    exact ⟨(reading_cb_frame arg h s).1.1, (reading_cb_frame arg h s).2.1⟩
  · intro w1 offset scale
    refine ⟨?_, ?_, ?_, ?_, ?_⟩
    · unfold mgos_hx711_start_polling
      cases hw : w1.hx711 with
      | none => simp [hw]
      | some h1 =>
        simp only []
        split_ifs <;> simp [hw]
    · unfold mgos_hx711_set_offset
      cases hw : w1.hx711 <;> simp [hw, config_fields]
    · unfold mgos_hx711_set_scale
      cases hw : w1.hx711 <;> simp [hw, config_fields]
    · unfold mgos_hx711_power_up
      cases hw : w1.hx711 <;> simp [hw]
    · unfold mgos_hx711_power_down
      cases hw : w1.hx711 <;> simp [hw]

/-- Witness for C15 on a configuration that passes validation. -/
theorem config_invariant_witness :
    (mgos_hx711_configure_driver accepted_config (Env.of_levels []) World.boot).1 = true ∧
    ∃ h0 : mgos_hx711,
      (mgos_hx711_configure_driver accepted_config (Env.of_levels [])
        World.boot).2.hx711 = some h0 ∧ valid_config h0 := by
  refine ⟨by decide, ?_⟩
  obtain ⟨h0, e1, _, e3, _⟩ :=
    config_invariant accepted_config (Env.of_levels []) World.boot (by decide)
  exact ⟨h0, e1, e3⟩

/-! ## The transient state `HX711_BUSY` -/

/-- Claim C16: from a state other than `HX711_BUSY`, every dispatcher tick that completes
ends in a state other than `HX711_BUSY`, and the tick does complete unless it runs in
`HX711_READ_AVERAGE` with a `NULL` context or a zero target count.  The read requests
leave the state as it is or set `HX711_READ`, respectively `HX711_READ_AVERAGE`, and
`mgos_hx711_set_gain` sets `HX711_SET_GAIN`.  Hence after a successful
`mgos_hx711_configure_driver` every run of timer callbacks ends in one of `HX711_IDLE`,
`HX711_SET_GAIN`, `HX711_READ`, `HX711_READ_AVERAGE`. -/
theorem busy_is_transient (env : Env) (arg : Option multi_sampling_ctx) (h : mgos_hx711)
    (s : Sys) (hb : h.state ≠ HX711_BUSY) :
    (∀ t, mgos_hx711_dispatcher env arg h s = some t → t.hx.state ≠ HX711_BUSY) ∧
    ((h.state ≠ HX711_READ_AVERAGE ∨ ∃ c, arg = some c ∧ c.times ≠ 0) →
      ∃ t, mgos_hx711_dispatcher env arg h s = some t) ∧
    (mgos_hx711_single_reading_cb arg h s).1.state ≠ HX711_BUSY ∧
    (mgos_hx711_average_reading_cb arg h s).1.state ≠ HX711_BUSY ∧
    (mgos_hx711_set_gain h s).1.state = HX711_SET_GAIN ∧
    ∀ (cfg : mgos_config_hx711) (env0 : Env) (w : World),
      (mgos_hx711_configure_driver cfg env0 w).1 = true →
      ∃ h0 : mgos_hx711, (mgos_hx711_configure_driver cfg env0 w).2.hx711 = some h0 ∧
        ∀ (env1 : Env) (cbs : List Callback) (ctx : Option multi_sampling_ctx) (s1 : Sys)
            (u : Tick), run_callbacks env1 cbs ⟨h0, ctx, s1⟩ = some u →
          u.hx.state = HX711_IDLE ∨ u.hx.state = HX711_SET_GAIN ∨
            u.hx.state = HX711_READ ∨ u.hx.state = HX711_READ_AVERAGE := by
  refine ⟨?_, dispatcher_total env arg h s, ?_, ?_, rfl, ?_⟩
  · intro t ht
    rcases (dispatcher_frame env arg h s t ht).2.2.2.2.2 with e | e
    · rw [e]; exact hb
    · rw [e]; simp
  · rcases (reading_cb_frame arg h s).1.2 with e | e
    · rw [e]; exact hb
    · rw [e]; simp
  · rcases (reading_cb_frame arg h s).2.2 with e | e
    · rw [e]; exact hb
    · rw [e]; simp
  · intro cfg env0 w hok
    obtain ⟨h0, e1, _, e3, _⟩ := configure_driver_success cfg env0 w hok
    refine ⟨h0, e1, ?_⟩
    intro env1 cbs ctx s1 u hu
    rcases (run_callbacks_frame env1 cbs _ u hu).2 with e | e | e | e
    · right; left; rw [e]; exact e3
    · left; exact e
    · right; right; left; exact e
    · right; right; right; exact e

/-- Witness for C16: a ready tick in `HX711_READ` ends in `HX711_IDLE`. -/
theorem busy_is_transient_witness :
    ∃ t, mgos_hx711_dispatcher (Env.of_levels (ready_tick_levels 7)) none
        { sample_handle with state := HX711_READ } ⟨[], 0, 0⟩ = some t ∧
      t.hx.state ≠ HX711_BUSY := by
  have h := busy_is_transient (Env.of_levels (ready_tick_levels 7)) none
    { sample_handle with state := HX711_READ } ⟨[], 0, 0⟩ (by decide)
  obtain ⟨t, ht⟩ := h.2.1 (Or.inl (by decide))
  exact ⟨t, ht, h.1 t ht⟩

/-! ## Auxiliary lemmas: bounds of the averaging context -/

theorem read_data_decode_bounds (r : Nat) (hr : r < 2 ^ 24) :
    -2 ^ 23 ≤ read_data_decode r ∧ read_data_decode r ≤ 2 ^ 23 - 1 := by
  have ht := testBit23_iff r hr
  rw [read_data_decode_eq r hr]
  cases hb : r.testBit 23
  · rw [hb] at ht
    have : ¬ 2 ^ 23 ≤ r := by simpa using ht
    simp
    omega
  · rw [hb] at ht
    have : 2 ^ 23 ≤ r := by simpa using ht
    simp
    omega

theorem average_bounds_accumulate (N : Nat) (h127 : N ≤ 127) (c : multi_sampling_ctx)
    (hc : average_bounds N c) (hle : c.attempt ≤ c.times) (d : Int) (hd1 : -2 ^ 23 ≤ d)
    (hd2 : d ≤ 2 ^ 23 - 1) :
    (c.attempt + 1) % 2 ^ 8 = c.attempt + 1 ∧ int32_of (c.sum + d) = c.sum + d ∧
    average_bounds N ⟨c.times, (c.attempt + 1) % 2 ^ 8, int32_of (c.sum + d)⟩ := by
  obtain ⟨e1, e2, e3⟩ := hc
  rw [abs_le] at e3
  have a1 : (c.attempt + 1) % 2 ^ 8 = c.attempt + 1 := by omega
  have a2 : int32_of (c.sum + d) = c.sum + d := by
    apply int32_of_eq_self <;> omega
  refine ⟨a1, a2, ?_⟩
  unfold average_bounds
  simp only [a1, a2]
  refine ⟨e1, by omega, ?_⟩
  rw [abs_le]
  push_cast
  constructor <;> omega

theorem dispatcher_average_bounds (N : Nat) (h1 : 1 ≤ N) (h127 : N ≤ 127) (env : Env)
    (c : multi_sampling_ctx) (h : mgos_hx711) (s : Sys) (hc : average_bounds N c) :
    ∃ t c', mgos_hx711_dispatcher env (some c) h s = some t ∧ t.ctx = some c' ∧
      average_bounds N c' := by
  cases hr : env.level h.data_gpio s.reads
  · cases hst : h.state
    · exact ⟨_, c, dispatcher_idle_or_busy env _ h s (Or.inl hst), rfl, hc⟩
    · exact ⟨_, c, dispatcher_idle_or_busy env _ h s (Or.inr hst), rfl, hc⟩
    · exact ⟨_, c, dispatcher_set_gain_ready env _ h s hst hr, rfl, hc⟩
    · exact ⟨_, c, dispatcher_read_ready env _ h s hst hr, rfl, hc⟩
    · by_cases hle : c.attempt ≤ c.times
      · have hd := read_data_decode_bounds _ (frame_at_lt env h.data_gpio (s.reads + 1))
        exact ⟨_, _, dispatcher_average_accumulate env c h s hst hr hle, rfl,
          (average_bounds_accumulate N h127 c hc hle _ hd.1 hd.2).2.2⟩
      · have h0 : c.times ≠ 0 := by rw [hc.1]; omega
        refine ⟨_, _, dispatcher_average_finish env c h s hst hr (by omega) h0, rfl, ?_⟩
        exact ⟨hc.1, by simp, by simp⟩
  · cases hst : h.state
    · exact ⟨_, c, dispatcher_idle_or_busy env _ h s (Or.inl hst), rfl, hc⟩
    · exact ⟨_, c, dispatcher_idle_or_busy env _ h s (Or.inr hst), rfl, hc⟩
    · exact ⟨_, c, dispatcher_waits env _ h s (by simp [hst]) (by simp [hst]) hr, rfl, hc⟩
    · exact ⟨_, c, dispatcher_waits env _ h s (by simp [hst]) (by simp [hst]) hr, rfl, hc⟩
    · exact ⟨_, c, dispatcher_waits env _ h s (by simp [hst]) (by simp [hst]) hr, rfl, hc⟩

theorem run_callbacks_average_bounds (N : Nat) (h1 : 1 ≤ N) (h127 : N ≤ 127) (env : Env) :
    ∀ (cbs : List Callback) (t : Tick) (c : multi_sampling_ctx), t.ctx = some c →
      average_bounds N c →
      ∃ u c', run_callbacks env cbs t = some u ∧ u.ctx = some c' ∧ average_bounds N c' := by
  intro cbs
  induction cbs with
  | nil => intro t c ht hc; exact ⟨t, c, rfl, ht, hc⟩
  | cons cb cbs ih =>
    intro t c ht hc
    have hstep : ∃ v c', fire env cb t = some v ∧ v.ctx = some c' ∧ average_bounds N c' := by
      cases cb with
      | dispatcher =>
        obtain ⟨v, c', hv, hv2, hv3⟩ := dispatcher_average_bounds N h1 h127 env c t.hx t.sys hc
        exact ⟨v, c', by simp only [fire, ht]; exact hv, hv2, hv3⟩
      | single_reading_cb => exact ⟨_, c, rfl, ht, hc⟩
      | average_reading_cb => exact ⟨_, c, rfl, ht, hc⟩
    obtain ⟨v, c', hv, hv2, hv3⟩ := hstep
    obtain ⟨u, c'', hu, hu2, hu3⟩ := ih v c' hv2 hv3
    exact ⟨u, c'', by rw [run_callbacks, hv]; exact hu, hu2, hu3⟩

/-! ## Averaging arithmetic -/

/-- Claim C19: `mgos_hx711_start_polling` with a poll rate `N` in `2 .. 127` creates the
context `(N, 0, 0)`.  From that context, after any sequence of timer callbacks on any
handle and any input, no tick has trapped, the context still has `times = N`, which is
not zero, `attempt ≤ times + 1 ≤ 128` and `|sum| ≤ attempt * 2 ^ 23 ≤ 2 ^ 30`; and the
next accumulation, if any, wraps neither the 8-bit counter nor the 32-bit sum. -/
theorem average_arithmetic_in_range (N : Nat) (h2 : 2 ≤ N) (h127 : N ≤ 127) (env : Env)
    (h : mgos_hx711) (s : Sys) (cbs : List Callback) :
    (∀ (w : World) (h0 : mgos_hx711), w.hx711 = some h0 → 0 < h0.poll_period →
      h0.poll_rate = N →
      (mgos_hx711_start_polling w).sys.trace =
        w.sys.trace ++ [Event.set_timer (w.sys.timers + 1) h0.poll_period true
          Callback.average_reading_cb (some ⟨N, 0, 0⟩)]) ∧
    ∃ u c, run_callbacks env cbs ⟨h, some ⟨N, 0, 0⟩, s⟩ = some u ∧ u.ctx = some c ∧
      c.times = N ∧ c.times ≠ 0 ∧ c.attempt ≤ c.times + 1 ∧ c.times + 1 ≤ 128 ∧
      |c.sum| ≤ (c.attempt : Int) * 2 ^ 23 ∧ (c.attempt : Int) * 2 ^ 23 ≤ 2 ^ 30 ∧
      ∀ frame : Nat, frame < 2 ^ 24 → c.attempt ≤ c.times →
        (c.attempt + 1) % 2 ^ 8 = c.attempt + 1 ∧
        int32_of (c.sum + read_data_decode frame) = c.sum + read_data_decode frame := by
  refine ⟨?_, ?_⟩
  · intro w h0 hw hp hr
    have e : uint8_of h0.poll_rate = N := by
      unfold uint8_of
      rw [hr]
      omega
    have hr1 : (1 : Int) < h0.poll_rate := by omega
    simp [mgos_hx711_start_polling, hw, Int.not_le.mpr hp, hr1, mgos_set_timer,
      MGOS_TIMER_REPEAT, e]
  · obtain ⟨u, c, hu, hu2, hc⟩ := run_callbacks_average_bounds N (by omega) h127 env cbs
      ⟨h, some ⟨N, 0, 0⟩, s⟩ ⟨N, 0, 0⟩ rfl ⟨rfl, by simp, by simp⟩
    refine ⟨u, c, hu, hu2, hc.1, by rw [hc.1]; omega, by rw [hc.1]; exact hc.2.1,
      by rw [hc.1]; omega, hc.2.2, ?_, ?_⟩
    · have := hc.2.1
      omega
    · intro frame hf hle
      have hd := read_data_decode_bounds frame hf
      have := average_bounds_accumulate N h127 c hc hle _ hd.1 hd.2
      exact ⟨this.1, this.2.1⟩

/-- Witness for C19: target count 2, four ready ticks of the dispatcher. -/
theorem average_arithmetic_in_range_witness :
    ∃ u c, run_callbacks constant_ten_env
        [Callback.average_reading_cb, Callback.dispatcher, Callback.dispatcher]
        ⟨sample_handle, some ⟨2, 0, 0⟩, ⟨[], 0, 0⟩⟩ = some u ∧ u.ctx = some c ∧
      c.attempt ≤ c.times + 1 := by
  obtain ⟨u, c, h1, h2, _, _, h5, _⟩ :=
    (average_arithmetic_in_range 2 (by decide) (by decide) constant_ten_env sample_handle
      ⟨[], 0, 0⟩ [Callback.average_reading_cb, Callback.dispatcher, Callback.dispatcher]).2
  exact ⟨u, c, h1, h2, h5⟩

/-! ## Auxiliary lemmas: progress of an averaging cycle -/

theorem ready_ticks_succ (env : Env) (n : Nat) (t u : Tick)
    (hd : mgos_hx711_dispatcher env t.ctx t.hx t.sys = some u) :
    ready_ticks env (n + 1) t =
      (if env.level t.hx.data_gpio t.sys.reads = false then 1 else 0) + ready_ticks env n u := by
  rw [ready_ticks, hd]

/-- Progress of an averaging cycle: from `HX711_READ_AVERAGE` with attempt counter `p`,
after `n` ticks of which `r` were ready the machine is still accumulating with counter
`p + r`, or it has finished. -/
theorem run_ticks_average (N : Nat) (h1 : 1 ≤ N) (h127 : N ≤ 127) (env : Env) :
    ∀ (n : Nat) (h : mgos_hx711) (s : Sys) (p : Nat) (sm : Int),
      h.state = HX711_READ_AVERAGE → p ≤ N + 1 →
      ∃ t, run_ticks env n ⟨h, some ⟨N, p, sm⟩, s⟩ = some t ∧
        (p + ready_ticks env n ⟨h, some ⟨N, p, sm⟩, s⟩ ≤ N + 1 →
          t.hx.state = HX711_READ_AVERAGE ∧
          (∃ sm', t.ctx = some ⟨N, p + ready_ticks env n ⟨h, some ⟨N, p, sm⟩, s⟩, sm'⟩) ∧
          frame_reads t.sys = frame_reads s + ready_ticks env n ⟨h, some ⟨N, p, sm⟩, s⟩ ∧
          timer_cancels t.sys = timer_cancels s) ∧
        (N + 2 ≤ p + ready_ticks env n ⟨h, some ⟨N, p, sm⟩, s⟩ →
          t.hx.state = HX711_IDLE ∧ t.ctx = some ⟨N, 0, 0⟩ ∧
          frame_reads t.sys = frame_reads s + (N + 1 - p) ∧
          timer_cancels t.sys = timer_cancels s + 1) := by
  intro n
  induction n with
  | zero =>
    intro h s p sm hs hp
    refine ⟨_, rfl, ?_, ?_⟩
    · intro _
      exact ⟨hs, ⟨sm, by simp [ready_ticks]⟩, by simp [ready_ticks], rfl⟩
    · intro hc
      simp [ready_ticks] at hc
      omega
  | succ n ih =>
    intro h s p sm hs hp
    cases hr : env.level h.data_gpio s.reads
    · by_cases hle : p ≤ N
      · -- a ready tick that accumulates one more frame
        have hd := dispatcher_average_accumulate env ⟨N, p, sm⟩ h s hs hr hle
        have hp1 : (p + 1) % 2 ^ 8 = p + 1 := by omega
        simp only [hp1] at hd
        obtain ⟨t, ht, c1, c2⟩ := ih h
          ⟨s.trace ++ [Event.gpio_read h.data_gpio false] ++
            frame_events_at env h (s.reads + 1), s.reads + 25, s.timers⟩ (p + 1)
          (int32_of (sm + read_data_decode (frame_at env h.data_gpio (s.reads + 1)))) hs
          (by omega)
        have hrt := ready_ticks_succ env n ⟨h, some ⟨N, p, sm⟩, s⟩ _ hd
        simp only [hr, if_true] at hrt
        have hfr : frame_reads
            ⟨s.trace ++ [Event.gpio_read h.data_gpio false] ++
              frame_events_at env h (s.reads + 1), s.reads + 25, s.timers⟩ =
            frame_reads s + 1 := by
          simp [frame_reads, List.countP_append, frame_events_at_count_enter, Event.is_enter,
            List.countP_cons]
        have hcl : timer_cancels
            ⟨s.trace ++ [Event.gpio_read h.data_gpio false] ++
              frame_events_at env h (s.reads + 1), s.reads + 25, s.timers⟩ =
            timer_cancels s := by
          simp [timer_cancels, List.countP_append, frame_events_at_count_clear,
            Event.is_clear, List.countP_cons]
        refine ⟨t, ?_, ?_, ?_⟩
        · rw [run_ticks]
          simp only [hd, Option.some_bind]
          exact ht
        · intro hc
          rw [hrt] at hc ⊢
          obtain ⟨a1, ⟨sm', a2⟩, a3, a4⟩ := c1 (by omega)
          refine ⟨a1, ⟨sm', ?_⟩, ?_, ?_⟩
          · rw [a2]; congr 2; omega
          · rw [a3, hfr]; omega
          · rw [a4, hcl]
        · intro hc
          rw [hrt] at hc
          obtain ⟨a1, a2, a3, a4⟩ := c2 (by omega)
          refine ⟨a1, a2, ?_, ?_⟩
          · rw [a3, hfr]; omega
          · rw [a4, hcl]
      · -- the ready tick that finishes the cycle
        have hd := dispatcher_average_finish env ⟨N, p, sm⟩ h s hs hr
          (by simp only []; omega) (by simp only []; omega)
        have hrun := run_ticks_idle env n
          ⟨{ h with raw_data := int32_of (Int.tdiv sm N), state := HX711_IDLE },
            some ⟨N, 0, 0⟩,
            ⟨s.trace ++ [Event.gpio_read h.data_gpio false, Event.clear_timer h.timer],
              s.reads + 1, s.timers⟩⟩ rfl
        have hrt := ready_ticks_succ env n ⟨h, some ⟨N, p, sm⟩, s⟩ _ hd
        simp only [hr, if_true] at hrt
        refine ⟨⟨{ h with raw_data := int32_of (Int.tdiv sm N), state := HX711_IDLE },
            some ⟨N, 0, 0⟩,
            ⟨s.trace ++ [Event.gpio_read h.data_gpio false, Event.clear_timer h.timer],
              s.reads + 1, s.timers⟩⟩, ?_, ?_, ?_⟩
        · rw [run_ticks]
          simp only [hd, Option.some_bind]
          exact hrun
        · intro hc
          rw [hrt] at hc
          omega
        · intro _
          refine ⟨rfl, rfl, ?_, ?_⟩
          · have : N + 1 - p = 0 := by omega
            simp [frame_reads, List.countP_append, Event.is_enter, List.countP_cons, this]
          · simp [timer_cancels, List.countP_append, Event.is_clear, List.countP_cons]
    · -- a tick on which the device is not ready
      have hd := dispatcher_waits env (some ⟨N, p, sm⟩) h s (by simp [hs]) (by simp [hs]) hr
      obtain ⟨t, ht, c1, c2⟩ := ih h
        ⟨s.trace ++ [Event.gpio_read h.data_gpio true], s.reads + 1, s.timers⟩ p sm hs hp
      have hrt := ready_ticks_succ env n ⟨h, some ⟨N, p, sm⟩, s⟩ _ hd
      simp only [hr, Bool.true_eq_false, if_false, Nat.zero_add] at hrt
      have hfr : frame_reads
          ⟨s.trace ++ [Event.gpio_read h.data_gpio true], s.reads + 1, s.timers⟩ =
          frame_reads s := by
        simp [frame_reads, List.countP_append, Event.is_enter, List.countP_cons]
      have hcl : timer_cancels
          ⟨s.trace ++ [Event.gpio_read h.data_gpio true], s.reads + 1, s.timers⟩ =
          timer_cancels s := by
        simp [timer_cancels, List.countP_append, Event.is_clear, List.countP_cons]
      refine ⟨t, ?_, ?_, ?_⟩
      · rw [run_ticks]
        simp only [hd, Option.some_bind]
        exact ht
      · intro hc
        rw [hrt] at hc ⊢
        obtain ⟨a1, a2, a3, a4⟩ := c1 hc
        exact ⟨a1, a2, by rw [a3, hfr], by rw [a4, hcl]⟩
      · intro hc
        rw [hrt] at hc
        obtain ⟨a1, a2, a3, a4⟩ := c2 hc
        exact ⟨a1, a2, by rw [a3, hfr], by rw [a4, hcl]⟩

theorem arm_average_eq (N : Nat) (h : mgos_hx711) (s : Sys) (hs : h.state = HX711_IDLE) :
    arm_average N h s =
      ⟨{ h with state := HX711_READ_AVERAGE, timer := s.timers + 1 }, some ⟨N, 0, 0⟩,
        ⟨s.trace ++ [Event.set_timer (s.timers + 1) 300 true Callback.dispatcher
          (some ⟨N, 0, 0⟩)], s.reads, s.timers + 1⟩⟩ := by
  simp [arm_average, mgos_hx711_average_reading_cb, hs, mgos_set_timer, MGOS_TIMER_REPEAT]

/-! ## Length of an averaging cycle -/

/-- Claim C18: arm an averaging cycle from `HX711_IDLE` with context `(N, 0, 0)`,
`2 ≤ N ≤ 127`, and fire the dispatcher timer `n` times on any input.  No tick traps.  The
machine is back in `HX711_IDLE` exactly when at least `N + 2` of these ticks were ready.
While at most `N + 1` were ready it is in `HX711_READ_AVERAGE`, its attempt counter and
the number of frame reads so far both equal the number of ready ticks, and no timer has
been cancelled; once `N + 2` were ready it has read exactly `N + 1` frames, cancelled
exactly one timer and reset the context.  Ticks that were not ready do not enter these
counts. -/
theorem average_cycle_length (N : Nat) (h2 : 2 ≤ N) (h127 : N ≤ 127) (env : Env)
    (h : mgos_hx711) (s : Sys) (hs : h.state = HX711_IDLE) (n : Nat) :
    ∃ t, run_ticks env n (arm_average N h s) = some t ∧
      (t.hx.state = HX711_IDLE ↔ N + 2 ≤ ready_ticks env n (arm_average N h s)) ∧
      (ready_ticks env n (arm_average N h s) ≤ N + 1 →
        t.hx.state = HX711_READ_AVERAGE ∧
        (∃ sm, t.ctx = some ⟨N, ready_ticks env n (arm_average N h s), sm⟩) ∧
        frame_reads t.sys = frame_reads s + ready_ticks env n (arm_average N h s) ∧
        timer_cancels t.sys = timer_cancels s) ∧
      (N + 2 ≤ ready_ticks env n (arm_average N h s) →
        t.ctx = some ⟨N, 0, 0⟩ ∧ frame_reads t.sys = frame_reads s + (N + 1) ∧
        timer_cancels t.sys = timer_cancels s + 1) := by
  rw [arm_average_eq N h s hs]
  obtain ⟨t, ht, c1, c2⟩ := run_ticks_average N (by omega) h127 env n
    { h with state := HX711_READ_AVERAGE, timer := s.timers + 1 }
    ⟨s.trace ++ [Event.set_timer (s.timers + 1) 300 true Callback.dispatcher
      (some ⟨N, 0, 0⟩)], s.reads, s.timers + 1⟩ 0 0 rfl (by omega)
  simp only [Nat.zero_add, Nat.sub_zero] at c1 c2
  have hfr : frame_reads
      ⟨s.trace ++ [Event.set_timer (s.timers + 1) 300 true Callback.dispatcher
        (some ⟨N, 0, 0⟩)], s.reads, s.timers + 1⟩ = frame_reads s := by
    simp [frame_reads, List.countP_append, Event.is_enter, List.countP_cons]
  have hcl : timer_cancels
      ⟨s.trace ++ [Event.set_timer (s.timers + 1) 300 true Callback.dispatcher
        (some ⟨N, 0, 0⟩)], s.reads, s.timers + 1⟩ = timer_cancels s := by
    simp [timer_cancels, List.countP_append, Event.is_clear, List.countP_cons]
  rw [hfr, hcl] at c1 c2
  refine ⟨t, ht, ?_, c1, ?_⟩
  · constructor
    · intro hi
      by_contra hc
      have := (c1 (by omega)).1
      rw [hi] at this
      exact absurd this (by decide)
    · intro hc
      exact (c2 hc).1
  · intro hc
    exact (c2 hc).2

/-- Witness for C18: with target count 2 and a device that is always ready, the cycle is
back in `HX711_IDLE` after four ticks, having read three frames. -/
theorem average_cycle_length_witness :
    ∃ t, run_ticks constant_ten_env 4 (arm_average 2 sample_handle ⟨[], 0, 0⟩) = some t ∧
      t.hx.state = HX711_IDLE ∧ frame_reads t.sys = 3 := by
  obtain ⟨t, ht, h1, _, h3⟩ := average_cycle_length 2 (by decide) (by decide)
    constant_ten_env sample_handle ⟨[], 0, 0⟩ rfl 4
  have hr : 2 + 2 ≤ ready_ticks constant_ten_env 4 (arm_average 2 sample_handle ⟨[], 0, 0⟩) := by
    decide
  exact ⟨t, ht, h1.mpr hr, by simpa [frame_reads] using (h3 hr).2.1⟩

/-! ## Averaging tick -/

/-- Claim C13: in state `HX711_READ_AVERAGE`, on a tick on which the data line is low, with
a sampling context `(times, attempt, sum)` as `mgos_hx711_start_polling` creates and the
dispatcher maintains it (`2 ≤ times ≤ 127`, `attempt ≤ times + 1`,
`|sum| ≤ attempt * 2 ^ 23`): if `attempt ≤ times` the tick performs one frame read and no
`mgos_clear_timer`, leaves the handle (state and `raw_data` included) as it was, replaces
`attempt` by `attempt + 1` and `sum` by `sum` plus the decoded frame; if `attempt > times`
the tick performs no frame read, calls `mgos_clear_timer` once, on the stored timer, sets
`raw_data` to `sum / times` truncated toward zero, `attempt` and `sum` to 0 and the state
to `HX711_IDLE`. -/
theorem dispatcher_average_tick (env : Env) (c : multi_sampling_ctx) (h : mgos_hx711)
    (s : Sys) (hs : h.state = HX711_READ_AVERAGE)
    (hr : env.level h.data_gpio s.reads = false) (h2 : 2 ≤ c.times) (h127 : c.times ≤ 127)
    (hb : average_bounds c.times c) :
    (c.attempt ≤ c.times →
      mgos_hx711_dispatcher env (some c) h s =
        some ⟨h, some ⟨c.times, c.attempt + 1,
            c.sum + read_data_decode (frame_at env h.data_gpio (s.reads + 1))⟩,
          ⟨s.trace ++ [Event.gpio_read h.data_gpio false] ++
            frame_events_at env h (s.reads + 1), s.reads + 25, s.timers⟩⟩ ∧
      ([Event.gpio_read h.data_gpio false] ++
          frame_events_at env h (s.reads + 1)).countP Event.is_enter = 1 ∧
      ([Event.gpio_read h.data_gpio false] ++
          frame_events_at env h (s.reads + 1)).countP Event.is_clear = 0) ∧
    (c.times < c.attempt →
      mgos_hx711_dispatcher env (some c) h s =
        some ⟨{ h with raw_data := Int.tdiv c.sum c.times, state := HX711_IDLE },
          some ⟨c.times, 0, 0⟩,
          ⟨s.trace ++ [Event.gpio_read h.data_gpio false, Event.clear_timer h.timer],
            s.reads + 1, s.timers⟩⟩ ∧
      [Event.gpio_read h.data_gpio false, Event.clear_timer h.timer].countP
          Event.is_enter = 0 ∧
      [Event.gpio_read h.data_gpio false, Event.clear_timer h.timer].countP
          Event.is_clear = 1) := by
  refine ⟨?_, ?_⟩
  · intro hc
    have hd := read_data_decode_bounds _ (frame_at_lt env h.data_gpio (s.reads + 1))
    have hw := average_bounds_accumulate c.times h127 c hb hc _ hd.1 hd.2
    refine ⟨?_, ?_, ?_⟩
    · rw [dispatcher_average_accumulate env c h s hs hr hc, hw.1, hw.2.1]
    · rw [List.countP_append, frame_events_at_count_enter]
      simp [Event.is_enter, List.countP_cons]
    · rw [List.countP_append, frame_events_at_count_clear]
      simp [Event.is_clear, List.countP_cons]
  · intro hc
    have hsum := hb.2.2
    have hatt := hb.2.1
    rw [abs_le] at hsum
    have ht : int32_of (Int.tdiv c.sum c.times) = Int.tdiv c.sum c.times :=
      tdiv_int32 _ _ (by omega) (by omega)
    refine ⟨?_, ?_, ?_⟩
    · rw [dispatcher_average_finish env c h s hs hr hc (by omega), ht]
    · simp [Event.is_enter, List.countP_cons]
    · simp [Event.is_clear, List.countP_cons]

/-- Witness for C13: the context (2, 3, -31) finishes with `raw_data = -15`. -/
theorem dispatcher_average_tick_witness :
    (mgos_hx711_dispatcher (Env.of_levels [false]) (some ⟨2, 3, -31⟩)
        { sample_handle with state := HX711_READ_AVERAGE } ⟨[], 0, 0⟩).map
      (fun t => (t.hx.state, t.hx.raw_data, t.ctx)) =
      some (HX711_IDLE, -15, some ⟨2, 0, 0⟩) := by
  rw [((dispatcher_average_tick (Env.of_levels [false]) ⟨2, 3, -31⟩
    { sample_handle with state := HX711_READ_AVERAGE } ⟨[], 0, 0⟩ rfl (by decide)
      (by decide) (by decide) ⟨rfl, by decide, by decide⟩).2 (by decide)).1]
  decide

/-! ## Auxiliary lemmas: binary32 arithmetic -/

theorem F32.toRat_of_finite (x : F32) (h : x.expo ≠ 255) :
    x.toRat = some ((if x.sign then -1 else 1) * (x.mag : ℚ) / 2 ^ 149) := by
  unfold F32.toRat
  rw [if_neg h]

theorem F32.find_index_eq (a b j0 : Nat) (hlt : a < b * 2 ^ (j0 + 24)) :
    ∀ (fuel j : Nat), j ≤ j0 → j0 ≤ j + fuel →
      (∀ i, j ≤ i → i < j0 → ¬ a < b * 2 ^ (i + 24)) →
      F32.find_index a b fuel j = j0 := by
  intro fuel
  induction fuel with
  | zero =>
    intro j h1 h2 _
    have : j = j0 := by omega
    subst this
    rfl
  | succ n ih =>
    intro j h1 h2 h3
    rw [F32.find_index]
    by_cases hj : j = j0
    · subst hj
      rw [if_pos hlt]
    · rw [if_neg (h3 j (le_refl j) (by omega))]
      exact ih (j + 1) (by omega) (by omega) (fun i hi1 hi2 => h3 i (by omega) hi2)

theorem round_nearest_even_exact (n D : Nat) (hD : 0 < D) :
    round_nearest_even (n * D) D = n := by
  unfold round_nearest_even
  have h1 : n * D % D = 0 := Nat.mul_mod_left n D
  have h2 : n * D / D = n := Nat.mul_div_cancel n hD
  rw [h1, h2, if_pos (by omega)]

theorem F32.pack_fields (neg : Bool) (e f : Nat) (he : e < 256) (hf : f < 2 ^ 23) :
    (F32.pack neg e f).sign = neg ∧ (F32.pack neg e f).expo = e ∧
    (F32.pack neg e f).frac = f := by
  unfold F32.sign F32.expo F32.frac F32.pack
  cases neg
  · refine ⟨?_, ?_, ?_⟩
    · simp; omega
    · simp; omega
    · simp; omega
  · refine ⟨?_, ?_, ?_⟩
    · simp; omega
    · simp; omega
    · simp; omega

/-- When `a / b` is `n0 * 2 ^ j0` with `(n0, j0)` the significand and index of a finite
binary32 number, `F32.round_ratio` returns that number. -/
theorem F32.round_ratio_exact (neg : Bool) (a b n0 j0 : Nat) (hb : 0 < b)
    (ha : a = n0 * 2 ^ j0 * b)
    (hform : j0 = 0 ∧ n0 < 2 ^ 23 ∨ 2 ^ 23 ≤ n0 ∧ n0 < 2 ^ 24 ∧ j0 ≤ 253) :
    (F32.round_ratio neg a b).sign = neg ∧ (F32.round_ratio neg a b).expo ≠ 255 ∧
    (F32.round_ratio neg a b).mag * b = a := by
  have hn24 : n0 < 2 ^ 24 := by rcases hform with h | h <;> omega
  have hj : j0 ≤ 253 := by rcases hform with h | h <;> omega
  have hpos : 0 < b * 2 ^ j0 := Nat.mul_pos hb (Nat.two_pow_pos _)
  have ha' : a = n0 * (b * 2 ^ j0) := by rw [ha]; ring
  have hlt : a < b * 2 ^ (j0 + 24) := by
    have h1 : n0 * (b * 2 ^ j0) < 2 ^ 24 * (b * 2 ^ j0) :=
      Nat.mul_lt_mul_of_pos_right hn24 hpos
    have h2 : 2 ^ 24 * (b * 2 ^ j0) = b * 2 ^ (j0 + 24) := by rw [pow_add]; ring
    rw [ha', ← h2]
    exact h1
  have hidx : F32.find_index a b 254 0 = j0 := by
    apply F32.find_index_eq a b j0 hlt 254 0 (by omega) (by omega)
    intro i _ hi
    rcases hform with h | h
    · omega
    · have h1 : b * 2 ^ (i + 24) ≤ b * 2 ^ (j0 + 23) :=
        Nat.mul_le_mul_left b (Nat.pow_le_pow_right (by norm_num) (by omega))
      have h2 : b * 2 ^ (j0 + 23) ≤ a := by
        have h3 : 2 ^ 23 * (b * 2 ^ j0) ≤ n0 * (b * 2 ^ j0) := Nat.mul_le_mul_right _ h.1
        have h4 : 2 ^ 23 * (b * 2 ^ j0) = b * 2 ^ (j0 + 23) := by rw [pow_add]; ring
        rw [ha', ← h4]
        exact h3
      omega
  have hn : round_nearest_even a (b * 2 ^ j0) = n0 := by
    rw [ha']
    exact round_nearest_even_exact n0 _ hpos
  unfold F32.round_ratio
  simp only [hidx, hn]
  rcases hform with ⟨h0, hsub⟩ | ⟨hnorm, _, _⟩
  · rw [if_pos hsub]
    obtain ⟨p1, p2, p3⟩ := F32.pack_fields neg 0 n0 (by norm_num) hsub
    refine ⟨p1, by rw [p2]; norm_num, ?_⟩
    unfold F32.mag F32.signif F32.index
    rw [p2, p3, ha, h0]
    simp
  · rw [if_neg (by omega), if_neg (by omega), if_neg (by omega)]
    obtain ⟨p1, p2, p3⟩ := F32.pack_fields neg (j0 + 1) (n0 - 2 ^ 23) (by omega) (by omega)
    refine ⟨p1, by rw [p2]; omega, ?_⟩
    unfold F32.mag F32.signif F32.index
    rw [p2, p3, ha]
    have e : 2 ^ 23 + (n0 - 2 ^ 23) = n0 := by omega
    rw [if_neg (by omega), if_neg (by omega), e]
    simp

/-- Conversion of an integer of at most 24 bits to `float` is exact. -/
theorem F32.ofInt_exact (v : Int) (hv : v ≠ 0) (h1 : -2 ^ 24 ≤ v) (h2 : v ≤ 2 ^ 24) :
    (F32.ofInt v).sign = decide (v < 0) ∧ (F32.ofInt v).expo ≠ 255 ∧
    (F32.ofInt v).mag = v.natAbs * 2 ^ 149 := by
  have hpos : 0 < v.natAbs := by omega
  have hle : v.natAbs ≤ 2 ^ 24 := by omega
  have hL1 : 2 ^ v.natAbs.log2 ≤ v.natAbs := Nat.log2_self_le (by omega)
  have hL2 : v.natAbs < 2 ^ (v.natAbs.log2 + 1) := Nat.lt_log2_self
  have hL : v.natAbs.log2 ≤ 24 := by
    by_contra hc
    have : 2 ^ 25 ≤ 2 ^ v.natAbs.log2 := Nat.pow_le_pow_right (by norm_num) (by omega)
    omega
  unfold F32.ofInt
  rw [if_neg hv]
  generalize v.natAbs = a at *
  generalize a.log2 = L at *
  have key : ∃ n0 j0, a * 2 ^ 149 = n0 * 2 ^ j0 * 1 ∧
      (j0 = 0 ∧ n0 < 2 ^ 23 ∨ 2 ^ 23 ≤ n0 ∧ n0 < 2 ^ 24 ∧ j0 ≤ 253) := by
    interval_cases L
    all_goals first
      | exact ⟨a * 2 ^ 23, 126, by ring, Or.inr ⟨by omega, by omega, by norm_num⟩⟩
      | exact ⟨a * 2 ^ 22, 127, by ring, Or.inr ⟨by omega, by omega, by norm_num⟩⟩
      | exact ⟨a * 2 ^ 21, 128, by ring, Or.inr ⟨by omega, by omega, by norm_num⟩⟩
      | exact ⟨a * 2 ^ 20, 129, by ring, Or.inr ⟨by omega, by omega, by norm_num⟩⟩
      | exact ⟨a * 2 ^ 19, 130, by ring, Or.inr ⟨by omega, by omega, by norm_num⟩⟩
      | exact ⟨a * 2 ^ 18, 131, by ring, Or.inr ⟨by omega, by omega, by norm_num⟩⟩
      | exact ⟨a * 2 ^ 17, 132, by ring, Or.inr ⟨by omega, by omega, by norm_num⟩⟩
      | exact ⟨a * 2 ^ 16, 133, by ring, Or.inr ⟨by omega, by omega, by norm_num⟩⟩
      | exact ⟨a * 2 ^ 15, 134, by ring, Or.inr ⟨by omega, by omega, by norm_num⟩⟩
      | exact ⟨a * 2 ^ 14, 135, by ring, Or.inr ⟨by omega, by omega, by norm_num⟩⟩
      | exact ⟨a * 2 ^ 13, 136, by ring, Or.inr ⟨by omega, by omega, by norm_num⟩⟩
      | exact ⟨a * 2 ^ 12, 137, by ring, Or.inr ⟨by omega, by omega, by norm_num⟩⟩
      | exact ⟨a * 2 ^ 11, 138, by ring, Or.inr ⟨by omega, by omega, by norm_num⟩⟩
      | exact ⟨a * 2 ^ 10, 139, by ring, Or.inr ⟨by omega, by omega, by norm_num⟩⟩
      | exact ⟨a * 2 ^ 9, 140, by ring, Or.inr ⟨by omega, by omega, by norm_num⟩⟩
      | exact ⟨a * 2 ^ 8, 141, by ring, Or.inr ⟨by omega, by omega, by norm_num⟩⟩
      | exact ⟨a * 2 ^ 7, 142, by ring, Or.inr ⟨by omega, by omega, by norm_num⟩⟩
      | exact ⟨a * 2 ^ 6, 143, by ring, Or.inr ⟨by omega, by omega, by norm_num⟩⟩
      | exact ⟨a * 2 ^ 5, 144, by ring, Or.inr ⟨by omega, by omega, by norm_num⟩⟩
      | exact ⟨a * 2 ^ 4, 145, by ring, Or.inr ⟨by omega, by omega, by norm_num⟩⟩
      | exact ⟨a * 2 ^ 3, 146, by ring, Or.inr ⟨by omega, by omega, by norm_num⟩⟩
      | exact ⟨a * 2 ^ 2, 147, by ring, Or.inr ⟨by omega, by omega, by norm_num⟩⟩
      | exact ⟨a * 2 ^ 1, 148, by ring, Or.inr ⟨by omega, by omega, by norm_num⟩⟩
      | exact ⟨a, 149, by ring, Or.inr ⟨by omega, by omega, by norm_num⟩⟩
      | exact ⟨2 ^ 23, 150, by
          have : a = 2 ^ 24 := by omega
          rw [this]; norm_num, Or.inr ⟨by norm_num, by norm_num, by norm_num⟩⟩
  obtain ⟨n0, j0, e1, e2⟩ := key
  have := F32.round_ratio_exact (decide (v < 0)) (a * 2 ^ 149) 1 n0 j0 (by norm_num) e1 e2
  simpa using this

theorem F32.signif_index_form (z : F32) (hz : z.expo ≠ 255) :
    z.index = 0 ∧ z.signif < 2 ^ 23 ∨
      2 ^ 23 ≤ z.signif ∧ z.signif < 2 ^ 24 ∧ z.index ≤ 253 := by
  have h1 : z.frac < 2 ^ 23 := Nat.mod_lt _ (by norm_num)
  have h2 : z.expo < 2 ^ 8 := Nat.mod_lt _ (by norm_num)
  unfold F32.signif F32.index
  by_cases h0 : z.expo = 0
  · left
    rw [if_pos h0, if_pos h0]
    exact ⟨rfl, h1⟩
  · right
    simp only [h0, if_false]
    omega

/-- Division of finite `float`s is exact when the quotient is a finite `float` `z`. -/
theorem F32.div_exact (x y z : F32) (hx : x.expo ≠ 255) (hy : y.expo ≠ 255)
    (hz : z.expo ≠ 255) (hx0 : x.mag ≠ 0) (hy0 : y.mag ≠ 0)
    (hq : z.mag * y.mag = x.mag * 2 ^ 149) :
    (F32.div x y).sign = xor x.sign y.sign ∧ (F32.div x y).expo ≠ 255 ∧
    (F32.div x y).mag * y.mag = x.mag * 2 ^ 149 := by
  unfold F32.div
  simp only [hx, hy, hx0, hy0, false_and, or_self, if_false]
  exact F32.round_ratio_exact _ _ _ z.signif z.index (Nat.pos_of_ne_zero hy0)
    (by rw [← hq]; rfl) (F32.signif_index_form z hz)

theorem F32.div_zero_num (x y : F32) (hx : x.expo ≠ 255) (hy : y.expo ≠ 255)
    (hx0 : x.mag = 0) (hy0 : y.mag ≠ 0) :
    (F32.div x y).toRat = some 0 := by
  unfold F32.div
  simp only [hx, hy, hx0, hy0, false_and, or_self, if_false, if_true]
  obtain ⟨_, p2, p3⟩ := F32.pack_fields (xor x.sign y.sign) 0 0 (by norm_num) (by norm_num)
  rw [F32.toRat_of_finite _ (by rw [p2]; norm_num)]
  unfold F32.mag F32.signif
  rw [p2, p3]
  simp

/-- In rational terms: when both operands are finite, the divisor is not zero and the exact
quotient is the value of some finite `float`, `F32.div` returns a `float` of that value. -/
theorem F32.div_toRat_exact (x y z : F32) (qx qy : ℚ) (hx : x.toRat = some qx)
    (hy : y.toRat = some qy) (hy0 : qy ≠ 0) (hz : z.toRat = some (qx / qy)) :
    (F32.div x y).toRat = some (qx / qy) := by
  have fx : x.expo ≠ 255 := by
    intro h; simp [F32.toRat, h] at hx
  have fy : y.expo ≠ 255 := by
    intro h; simp [F32.toRat, h] at hy
  have fz : z.expo ≠ 255 := by
    intro h; simp [F32.toRat, h] at hz
  rw [F32.toRat_of_finite _ fx, Option.some.injEq] at hx
  rw [F32.toRat_of_finite _ fy, Option.some.injEq] at hy
  rw [F32.toRat_of_finite _ fz, Option.some.injEq] at hz
  have my0 : y.mag ≠ 0 := by
    intro h
    apply hy0
    rw [← hy, h]
    simp
  have my0' : (y.mag : ℚ) ≠ 0 := by exact_mod_cast my0
  by_cases mx0 : x.mag = 0
  · rw [F32.div_zero_num x y fx fy mx0 my0, ← hx, mx0]
    simp
  · have hq : z.mag * y.mag = x.mag * 2 ^ 149 := by
      have hzabs : (z.mag : ℚ) / 2 ^ 149 = |qx / qy| := by
        rw [← hz]
        cases z.sign <;> simp [abs_div, abs_mul]
      have hxabs : |qx| = (x.mag : ℚ) / 2 ^ 149 := by
        rw [← hx]
        cases x.sign <;> simp [abs_div, abs_mul]
      have hyabs : |qy| = (y.mag : ℚ) / 2 ^ 149 := by
        rw [← hy]
        cases y.sign <;> simp [abs_div, abs_mul]
      rw [abs_div, hxabs, hyabs] at hzabs
      have : (z.mag : ℚ) * y.mag = x.mag * 2 ^ 149 := by
        field_simp at hzabs
        linarith
      exact_mod_cast this
    obtain ⟨r1, r2, r3⟩ := F32.div_exact x y z fx fy fz mx0 my0 hq
    rw [F32.toRat_of_finite _ r2, r1, ← hx, ← hy]
    have r3' : ((F32.div x y).mag : ℚ) * y.mag = x.mag * 2 ^ 149 := by exact_mod_cast r3
    have : ((F32.div x y).mag : ℚ) = x.mag * 2 ^ 149 / y.mag := by
      field_simp
      exact r3'
    rw [this]
    congr 1
    have my1 : -(y.mag : ℚ) ≠ 0 := neg_ne_zero.mpr my0'
    cases x.sign <;> cases y.sign <;> simp only [Bool.xor_false, Bool.xor_true, Bool.not_false,
      Bool.not_true, Bool.false_eq_true, if_false, if_true] <;> field_simp <;> ring

theorem F32.ofInt_toRat (v : Int) (h1 : -2 ^ 24 ≤ v) (h2 : v ≤ 2 ^ 24) :
    (F32.ofInt v).toRat = some (v : ℚ) := by
  by_cases hv : v = 0
  · subst hv
    have e : F32.ofInt 0 = F32.zero := by simp [F32.ofInt]
    rw [e, F32.toRat_of_finite _ (by decide)]
    have hm : F32.zero.mag = 0 := by decide
    rw [hm]
    simp
  · obtain ⟨p1, p2, p3⟩ := F32.ofInt_exact v hv h1 h2
    rw [F32.toRat_of_finite _ p2, p1, p3]
    congr 1
    have hp : (2 : ℚ) ^ 149 ≠ 0 := by positivity
    push_cast
    rw [Nat.cast_natAbs]
    rcases lt_or_gt_of_ne hv with hneg | hpos
    · rw [abs_of_neg hneg]
      simp only [hneg, decide_True, if_true]
      push_cast
      norm_num
    · rw [abs_of_pos hpos]
      have : ¬ v < 0 := by omega
      simp only [this, decide_False, Bool.false_eq_true, if_false]
      norm_num

/-! ## Calibrated units -/

/-- Claim C7 (counterexample): with raw reading 8388607, offset -8388610 and scale 2.0 the
value is 16777217 and `mgos_hx711_get_units` returns 8388608.0, not 16777217 / 2: the
value is first converted to `float`, which has 24 significand bits. -/
theorem get_units_inexact_quotient :
    mgos_hx711_get_value inexact_units_world = 16777217 ∧
    F32.toRat ⟨0x40000000⟩ = some 2 ∧
    (mgos_hx711_get_units inexact_units_world).result = ⟨0x4B000000⟩ ∧
    F32.toRat ⟨0x4B000000⟩ = some 8388608 ∧
    (mgos_hx711_get_units inexact_units_world).result.toRat ≠ some ((16777217 : ℚ) / 2) := by
  have e1 : (mgos_hx711_get_units inexact_units_world).result = ⟨0x4B000000⟩ := by decide
  have e2 : F32.toRat ⟨0x4B000000⟩ = some 8388608 := by
    rw [F32.toRat_of_finite _ (by decide)]
    have h1 : (⟨0x4B000000⟩ : F32).sign = false := by decide
    have h2 : (⟨0x4B000000⟩ : F32).mag = 8388608 * 2 ^ 149 := by decide
    rw [h1, h2]
    norm_num
  refine ⟨by decide, ?_, e1, e2, ?_⟩
  · rw [F32.toRat_of_finite _ (by decide)]
    have h1 : (⟨0x40000000⟩ : F32).sign = false := by decide
    have h2 : (⟨0x40000000⟩ : F32).mag = 2 * 2 ^ 149 := by decide
    rw [h1, h2]
    norm_num
  · rw [e1, e2]
    norm_num

/-- Claim C7 (amended): on an initialised driver `mgos_hx711_get_units` returns 0 when the
scale is exactly 1.0, whatever the raw reading and the offset.  For every other scale it
returns the `float` quotient of the value (raw reading minus offset) converted to `float`
by the scale, each step rounded to nearest, ties to even.  That quotient is value / scale
itself whenever the value has at most 24 bits, the scale is finite and not zero and
value / scale is a `float`; raw 100, offset 0 and scale 2.0 give 50.0.
`mgos_hx711_set_scale` changes the scale and nothing else. -/
theorem get_units_float_quotient (w : World) (h : mgos_hx711) (hw : w.hx711 = some h) :
    (h.scale = F32.one →
      mgos_hx711_get_units w = Units.zero ∧
      (mgos_hx711_get_units w).result.toRat = some 0) ∧
    (h.scale ≠ F32.one →
      mgos_hx711_get_units w = Units.quot (mgos_hx711_get_value w) h.scale ∧
      (mgos_hx711_get_units w).result =
        F32.div (F32.ofInt (mgos_hx711_get_value w)) h.scale) ∧
    (h.scale ≠ F32.one → -2 ^ 24 ≤ mgos_hx711_get_value w →
      mgos_hx711_get_value w ≤ 2 ^ 24 →
      ∀ (qs : ℚ) (z : F32), h.scale.toRat = some qs → qs ≠ 0 →
        z.toRat = some ((mgos_hx711_get_value w : ℚ) / qs) →
        (mgos_hx711_get_units w).result.toRat =
          some ((mgos_hx711_get_value w : ℚ) / qs)) ∧
    (∀ scale : F32,
      mgos_hx711_set_scale scale w = { w with hx711 := some { h with scale := scale } }) ∧
    mgos_hx711_get_value fifty_units_world = 100 ∧
    (mgos_hx711_get_units fifty_units_world).result = ⟨0x42480000⟩ ∧
    F32.toRat ⟨0x42480000⟩ = some 50 := by
  have hq : h.scale ≠ F32.one →
      mgos_hx711_get_units w = Units.quot (mgos_hx711_get_value w) h.scale := by
    intro hs
    simp [mgos_hx711_get_units, hw, hs]
  refine ⟨?_, ?_, ?_, ?_, by decide, by decide, ?_⟩
  · intro hs
    have e : mgos_hx711_get_units w = Units.zero := by simp [mgos_hx711_get_units, hw, hs]
    refine ⟨e, ?_⟩
    rw [e]
    show F32.zero.toRat = some 0
    rw [F32.toRat_of_finite _ (by decide)]
    have hm : F32.zero.mag = 0 := by decide
    rw [hm]
    simp
  · intro hs
    refine ⟨hq hs, ?_⟩
    rw [hq hs]
    rfl
  · intro hs h1 h2 qs z hqs hqs0 hz
    rw [hq hs]
    exact F32.div_toRat_exact _ _ z _ qs (F32.ofInt_toRat _ h1 h2) hqs hqs0 hz
  · intro scale
    simp [mgos_hx711_set_scale, hw]
  · rw [F32.toRat_of_finite _ (by decide)]
    have h1 : (⟨0x42480000⟩ : F32).sign = false := by decide
    have h2 : (⟨0x42480000⟩ : F32).mag = 50 * 2 ^ 149 := by decide
    rw [h1, h2]
    norm_num

/-- Witness for C7 (amended): raw 100, offset 0 and scale 2.0 yield exactly 100 / 2. -/
theorem get_units_float_quotient_witness :
    (mgos_hx711_get_units fifty_units_world).result.toRat =
      some ((mgos_hx711_get_value fifty_units_world : ℚ) / 2) := by
  have h := get_units_float_quotient fifty_units_world
    { sample_handle with raw_data := 100, offset := 0, scale := ⟨0x40000000⟩ } rfl
  have e : mgos_hx711_get_value fifty_units_world = 100 := h.2.2.2.2.1
  have hs : F32.toRat ⟨0x40000000⟩ = some 2 := by
    rw [F32.toRat_of_finite _ (by decide)]
    have h1 : (⟨0x40000000⟩ : F32).sign = false := by decide
    have h2 : (⟨0x40000000⟩ : F32).mag = 2 * 2 ^ 149 := by decide
    rw [h1, h2]
    norm_num
  refine h.2.2.1 (by decide) (by rw [e]; norm_num) (by rw [e]; norm_num) 2 ⟨0x42480000⟩ hs
    (by norm_num) ?_
  rw [h.2.2.2.2.2.2, e]
  norm_num

end HX711
